import Mathlib

/-!
Shallow embedding of `dl4ds/models/sp_preups.py`: the two architecture
builders `net_pin` and `unet_pin` and the depth validator `_check_nblocks`.

The builders assemble a symbolic computation graph.  Graph nodes are terms
of the inductive type `Tensor`; every Keras layer / block application in
the source becomes one constructor application recording exactly the
arguments the source passes (an `Option` field records whether a keyword
argument was passed at all: `none` means the source call omits it and the
external block's own default applies).  The block primitives themselves
(`ConvBlock`, `EncoderBlock`, ...) live outside this repository and are
treated as opaque node constructors, consumed only through their
shape contracts, exactly as the design document scopes them.
-/

/-- Canonical dropout variants dispatched on in `net_pin` (the string values
compared against in the source: `gaussian`, `spatial`, `mcdrop`,
`mcgaussiandrop`, `mcspatialdrop`; plain Bernoulli dropout is the `None`
variant). -/
inductive DVariant where
  | gaussian
  | spatial
  | mcdrop
  | mcgaussiandrop
  | mcspatialdrop
  deriving DecidableEq

/-- Canonical backbone families dispatched on in the source:
`convnet`, `resnet`, `densenet`. -/
inductive Backbone where
  | convnet
  | resnet
  | densenet
  deriving DecidableEq

/-- Name string of a canonical backbone, as used for the model name. -/
def backboneName : Backbone → String
  | .convnet => "convnet"
  | .resnet => "resnet"
  | .densenet => "densenet"

/-- Modelled from the spec: `checkarg_backbone` lives in `dl4ds/utils.py`,
which is not part of this repository snapshot.  Per the design document it
maps an input string to the canonical enumeration value or raises an
argument error naming the invalid value and the closed set of accepted
values, before any graph node is created. -/
def checkarg_backbone : String → Except String Backbone
  | "convnet" => .ok .convnet
  | "resnet" => .ok .resnet
  | "densenet" => .ok .densenet
  | s => .error ("`" ++ s ++ "` is not an accepted backbone. Accepted values: convnet, resnet, densenet")

/-- Modelled from the spec: `checkarg_dropout_variant` lives in
`dl4ds/utils.py`, which is not part of this repository snapshot.  Per the
design document it maps an input value (a string or none) to the canonical
enumeration value or raises an argument error naming the invalid value and
the closed set of accepted values. -/
def checkarg_dropout_variant : Option String → Except String (Option DVariant)
  | none => .ok none
  | some "gaussian" => .ok (some .gaussian)
  | some "spatial" => .ok (some .spatial)
  | some "mcdrop" => .ok (some .mcdrop)
  | some "mcgaussiandrop" => .ok (some .mcgaussiandrop)
  | some "mcspatialdrop" => .ok (some .mcspatialdrop)
  | some s => .error ("`" ++ s ++ "` is not an accepted dropout variant. Accepted values: None, gaussian, spatial, mcdrop, mcgaussiandrop, mcspatialdrop")

/-- Symbolic computation-graph node.  Each constructor records one layer or
block application from the source, with the argument values the source
passes at that call site.  `Option`-typed keyword fields are `none` when
the source call site omits that keyword argument. -/
inductive Tensor where
  | inputX (spatial : Option (Nat × Nat)) (channels : Nat)
  | inputS (spatial : Option (Nat × Nat)) (channels : Nat)
  | conv2D (filters kh kw : Nat) (padding : String) (x : Tensor)
  | convBlock (filters : Nat) (activation : Option String) (dropoutRate : ℚ)
      (dropoutVariant : Option (Option DVariant)) (normalization : Option String)
      (attention : Option Bool) (name : Option String) (x : Tensor)
  | residualBlock (filters : Nat) (activation : Option String) (dropoutRate : ℚ)
      (dropoutVariant : Option DVariant) (normalization : Option String)
      (attention : Bool) (x : Tensor)
  | denseBlock (filters : Nat) (activation : Option String) (dropoutRate : ℚ)
      (dropoutVariant : Option DVariant) (normalization : Option String)
      (attention : Bool) (x : Tensor)
  | transitionBlock (filters : Nat) (x : Tensor)
  | dropout (rate : ℚ) (x : Tensor)
  | gaussianDropout (rate : ℚ) (x : Tensor)
  | spatialDropout2D (rate : ℚ) (x : Tensor)
  | mcDropout (rate : ℚ) (x : Tensor)
  | add (x y : Tensor)
  | concat (x y : Tensor)
  | localizedConvBlock (filters : Nat) (useBias : Bool) (x : Tensor)
  | encoderBlockDown (filters : Nat) (activation : Option String) (dropoutRate : ℚ)
      (dropoutVariant : Option DVariant) (normalization : Option String)
      (attention : Bool) (nameSuffix : String) (x : Tensor)
  | encoderBlockSkip (filters : Nat) (activation : Option String) (dropoutRate : ℚ)
      (dropoutVariant : Option DVariant) (normalization : Option String)
      (attention : Bool) (nameSuffix : String) (x : Tensor)
  | subpixelConvolutionBlock (scale filters : Nat) (nameSuffix : String) (x : Tensor)
  | upSampling2D (size : Nat) (interpolation : String) (name : String) (x : Tensor)
  | deconvolutionBlock (scale filters : Nat) (activation : Option String)
      (nameSuffix : String) (x : Tensor)
  | padConcat (nameSuffix : String) (x skip : Tensor)
  deriving DecidableEq

/-- A Keras layer object that was constructed but never applied to a tensor.
Only the two Monte-Carlo dropout branches of `net_pin` produce such values
(`b = MCGaussianDropout(dropout_rate)` and `b = MCSpatialDropout2D(dropout_rate)`
assign the layer itself instead of applying it). -/
inductive LayerVal where
  | mcGaussianDropoutLayer (rate : ℚ)
  | mcSpatialDropout2DLayer (rate : ℚ)
  deriving DecidableEq

/-- Value of the running trunk variable `b` in `net_pin` after the dropout
dispatch: either a graph tensor, or an unapplied layer object. -/
inductive BVal where
  | tensor (t : Tensor)
  | layer (l : LayerVal)
  deriving DecidableEq

/-- Assembled Keras model: named inputs list, the output tensor, the name. -/
structure KModel where
  inputs : List Tensor
  output : Tensor
  name : String
  deriving DecidableEq

/-- Configuration surface of `net_pin` (defaults as in the source). -/
structure NetPinConfig where
  backbone_block : String
  n_channels : Nat
  n_aux_channels : Nat
  n_filters : Nat
  n_blocks : Nat
  hr_size : Nat × Nat
  n_channels_out : Nat := 1
  activation : Option String := some "relu"
  dropout_rate : ℚ := 1/5
  dropout_variant : Option String := some "spatial"
  normalization : Option String := none
  attention : Bool := false
  output_activation : Option String := none
  localcon_layer : Bool := false

/-- Configuration surface of `unet_pin` (defaults as in the source). -/
structure UnetPinConfig where
  backbone_block : String
  n_channels : Nat
  n_aux_channels : Nat
  n_filters : Nat
  n_blocks : Nat
  hr_size : Nat × Nat
  n_channels_out : Nat := 1
  activation : Option String := some "relu"
  dropout_rate : ℚ := 1/5
  dropout_variant : Option String := some "spatial"
  normalization : Option String := none
  attention : Bool := false
  decoder_upsampling : String := "rc"
  output_activation : Option String := none
  localcon_layer : Bool := false

/-- Python's `shape_dim // 2**power` for a natural dimension and an integer
power: floor division by `2^power`.  For negative `power` the Python
expression is float arithmetic, `n // 2.0**power`, which for the small
magnitudes reachable here is exactly `n * 2^(-power)`. -/
def pyFloorDivPow2 (n : Nat) (p : Int) : Nat :=
  if 0 ≤ p then n / 2 ^ p.toNat else n * 2 ^ (-p).toNat

/-- The `while` condition of `_check_nblocks`:
`shape[0] // 2**power < 2 or shape[1] // 2**power < 2`. -/
def nblocksCond (shape : Nat × Nat) (p : Int) : Bool :=
  decide (pyFloorDivPow2 shape.1 p < 2) || decide (pyFloorDivPow2 shape.2 p < 2)

/-- Fuel-indexed unfolding of the `while` loop of `_check_nblocks`: while the
condition holds, decrement `power`; `none` means the fuel ran out before the
loop exited. -/
def checkNblocksGo (shape : Nat × Nat) : Nat → Int → Option Int
  | 0, _ => none
  | fuel + 1, p => if nblocksCond shape p then checkNblocksGo shape fuel (p - 1) else some p

/-- `_check_nblocks(shape, power)`.  The loop decrements `power` while the
condition holds, so starting from `power` it can run at most `power.toNat + 2`
times before both dimensions (if positive) have been multiplied past 2;
that fuel is fed to the loop unfolding.  `none` models non-termination
(reachable only when a dimension is 0). -/
def _check_nblocks (shape : Nat × Nat) (power : Int) : Option Int :=
  checkNblocksGo shape (power.toNat + 2) power

/-- One iteration of the `for i in range(n_blocks)` trunk loop of `net_pin`:
the backbone-specific block overwrites `b`; the dense backbone additionally
applies a `TransitionBlock(n_filters // 2)`. -/
def backboneStep (bb : Backbone) (nf : Nat) (act : Option String) (dr : ℚ)
    (dv : Option DVariant) (nm : Option String) (att : Bool) (b : Tensor) : Tensor :=
  match bb with
  | .convnet => .convBlock nf act dr (some dv) nm (some att) none b
  | .resnet => .residualBlock nf act dr dv nm att b
  | .densenet => .transitionBlock (nf / 2) (.denseBlock nf act dr dv nm att b)

/-- The `net_pin` trunk loop: `n` applications of `backboneStep` to `b`
(the loop body does not use the index). -/
def trunkLoop (bb : Backbone) (nf : Nat) (act : Option String) (dr : ℚ)
    (dv : Option DVariant) (nm : Option String) (att : Bool) : Nat → Tensor → Tensor
  | 0, b => b
  | n + 1, b => trunkLoop bb nf act dr dv nm att n (backboneStep bb nf act dr dv nm att b)

/-- The dropout dispatch of `net_pin` (source lines 76-88).  Note the two
Monte-Carlo branches `mcgaussiandrop` and `mcspatialdrop` assign the layer
object itself to `b` without applying it to the tensor (`b = MCGaussianDropout(dropout_rate)`,
missing the trailing `(b)`), so they yield a `BVal.layer`. -/
def dropoutStep (dr : ℚ) (dv : Option DVariant) (b : Tensor) : BVal :=
  if 0 < dr then
    match dv with
    | none => .tensor (.dropout dr b)
    | some .gaussian => .tensor (.gaussianDropout dr b)
    | some .spatial => .tensor (.spatialDropout2D dr b)
    | some .mcdrop => .tensor (.mcDropout dr b)
    | some .mcgaussiandrop => .layer (.mcGaussianDropoutLayer dr)
    | some .mcspatialdrop => .layer (.mcSpatialDropout2DLayer dr)
  else .tensor b

/-- Extract the tensor from a `BVal`; applying a graph operation to an
unapplied layer object is a construction-time type error in the functional
graph API, modelled as an `Except.error`. -/
def requireTensor : BVal → Except String Tensor
  | .tensor t => .ok t
  | .layer _ => .error "a layer object was passed where a graph tensor is required"

/-- The backbone merge of `net_pin` (source lines 90-95) fused with the first
subsequent operation that consumes `x` as a tensor.  `convnet` replaces `x`
by `b`; `resnet` adds; `densenet` concatenates.  On every path of the source
an unapplied layer object in `b` reaches a tensor-consuming layer before the
model is returned (`Add`/`Concatenate` here, or the localized block, the
auxiliary `Concatenate`, or the penultimate `ConvBlock` later), so the merge
result is demanded as a tensor. -/
def mergedTensor (bb : Backbone) (x : Tensor) (b : BVal) : Except String Tensor :=
  match bb with
  | .convnet => requireTensor b
  | .resnet => (requireTensor b).map (fun t => .add x t)
  | .densenet => (requireTensor b).map (fun t => .concat x t)

/-- The tail shared verbatim by both builders (source lines 97-119 and
200-219): optional localized-convolution concatenation, optional
auxiliary-branch fusion, the penultimate `ConvBlock` (activation `None`,
attention forced on), and the output `ConvBlock` (`n_channels_out` filters,
output activation, attention off). -/
def modelTail (nf : Nat) (act : Option String) (dr : ℚ) (nm : Option String)
    (nout : Nat) (outAct : Option String) (localcon aux : Bool)
    (s_in x : Tensor) : Tensor :=
  let x1 := if localcon then Tensor.concat x (.localizedConvBlock 2 true x) else x
  let x2 := if aux then Tensor.concat x1 (.convBlock nf act 0 none nm (some false) none s_in) else x1
  let x3 := Tensor.convBlock nf none dr none nm (some true) none x2
  Tensor.convBlock nout outAct 0 none nm (some false) none x3

/-- The primary input tensor of `net_pin` (source lines 49-52): spatially
unconstrained unless the localized-convolution layer is requested. -/
def netInputX (cfg : NetPinConfig) : Tensor :=
  if cfg.localcon_layer then .inputX (some cfg.hr_size) cfg.n_channels
  else .inputX none cfg.n_channels

/-- The auxiliary input tensor of `net_pin` (source lines 43-47); only
attached to the model when `n_aux_channels > 0`. -/
def netInputS (cfg : NetPinConfig) : Tensor :=
  if cfg.localcon_layer then .inputS (some cfg.hr_size) cfg.n_aux_channels
  else .inputS none cfg.n_aux_channels

/-- The initial channel-projection convolution of `net_pin` (source line 53),
the shared starting value of both `x` and `b`. -/
def netX0 (cfg : NetPinConfig) : Tensor :=
  .conv2D cfg.n_filters 3 3 "same" (netInputX cfg)

/-- The value of `b` after the trunk loop and the post-loop convolution of
`net_pin` (source lines 57-74). -/
def netB1 (cfg : NetPinConfig) (bb : Backbone) (dv : Option DVariant) : Tensor :=
  .conv2D cfg.n_filters 3 3 "same"
    (trunkLoop bb cfg.n_filters cfg.activation cfg.dropout_rate dv
      cfg.normalization cfg.attention cfg.n_blocks (netX0 cfg))

/-- The assembled `net_pin` model around the merged trunk tensor `xt`
(source lines 97-123). -/
def netModel (cfg : NetPinConfig) (bb : Backbone) (xt : Tensor) : KModel :=
  let out := modelTail cfg.n_filters cfg.activation cfg.dropout_rate cfg.normalization
               cfg.n_channels_out cfg.output_activation cfg.localcon_layer
               (decide (0 < cfg.n_aux_channels)) (netInputS cfg) xt
  if 0 < cfg.n_aux_channels then ⟨[netInputX cfg, netInputS cfg], out, backboneName bb ++ "_pin"⟩
  else ⟨[netInputX cfg], out, backboneName bb ++ "_pin"⟩

/-- Embedding of `net_pin` (source lines 14-123). -/
def netPin (cfg : NetPinConfig) : Except String KModel :=
  match checkarg_backbone cfg.backbone_block with
  | .error e => .error e
  | .ok bb =>
    match checkarg_dropout_variant cfg.dropout_variant with
    | .error e => .error e
    | .ok dv =>
      match mergedTensor bb (netX0 cfg) (dropoutStep cfg.dropout_rate dv (netB1 cfg bb dv)) with
      | .error e => .error e
      | .ok xt => .ok (netModel cfg bb xt)

/-- State after the `unet_pin` encoder loop: the running tensor, the recorded
skip tensors in recording order (`enconding_filters`), the recorded filter
counts in recording order (`n_filters_list`), and the final value of the
`n_filters` variable. -/
structure EncResult where
  x : Tensor
  skips : List Tensor
  nfl : List Nat
  nf : Nat
  deriving DecidableEq

/-- The `unet_pin` encoder loop (source lines 172-177), starting at loop
index `i` with `n` iterations left: each stage applies `EncoderBlock`
(whose two outputs are the downsampled tensor and the skip tensor),
appends the skip tensor and the current filter count, then doubles the
filter count capping at 256. -/
def encoderLoop (act : Option String) (dr : ℚ) (dv : Option DVariant)
    (nm : Option String) (att : Bool) (i : Nat) : Nat → Tensor → Nat → EncResult
  | 0, x, nf => ⟨x, [], [], nf⟩
  | n + 1, x, nf =>
    let down := Tensor.encoderBlockDown nf act dr dv nm att (toString (i + 1)) x
    let skip := Tensor.encoderBlockSkip nf act dr dv nm att (toString (i + 1)) x
    let r := encoderLoop act dr dv nm att (i + 1) n down (min 256 (nf * 2))
    ⟨r.x, skip :: r.skips, nf :: r.nfl, r.nf⟩

/-- The decoder upsampling dispatch of `unet_pin` (source lines 188-193):
`spc`, `rc`, `dc`, and — faithfully to the `if/elif` chain without an
`else` — any other string leaves `x` unchanged. -/
def upsampleStep (us : String) (nf : Nat) (act : Option String) (j : Nat) (x : Tensor) : Tensor :=
  if us = "spc" then .subpixelConvolutionBlock 2 nf (toString (j + 1)) x
  else if us = "rc" then .upSampling2D 2 "bilinear" ("BilinearUpsampling" ++ toString (j + 1)) x
  else if us = "dc" then .deconvolutionBlock 2 nf act (toString (j + 1)) x
  else x

/-- One decoder stage of `unet_pin` (source lines 186-198): upsample,
`PadConcat` with the stage's skip tensor, then a named decoder `ConvBlock`
at the stage's filter count. -/
def decoderStage (us : String) (nf : Nat) (act : Option String) (dr : ℚ)
    (dv : Option DVariant) (nm : Option String) (att : Bool) (j : Nat)
    (skip x : Tensor) : Tensor :=
  let x1 := upsampleStep us nf act j x
  let x2 := Tensor.padConcat ("_SkipConnection" ++ toString (j + 1)) x1 skip
  Tensor.convBlock nf act dr (some dv) nm (some att)
    (some ("DecoderConvBlock" ++ toString (j + 1))) x2

/-- The `unet_pin` decoder loop over the zip of reversed skip tensors and
reversed filter counts; returns the final tensor together with the final
value of the `n_filters` variable (which the tail then uses). -/
def decoderLoop (us : String) (act : Option String) (dr : ℚ) (dv : Option DVariant)
    (nm : Option String) (att : Bool) : Nat → List (Tensor × Nat) → Tensor → Nat → Tensor × Nat
  | _, [], x, nf => (x, nf)
  | j, (skip, nf') :: rest, x, _ =>
    decoderLoop us act dr dv nm att (j + 1) rest
      (decoderStage us nf' act dr dv nm att j skip x) nf'

/-- The input-shape policy of `unet_pin` (source line 162): spatial shape may
be left unconstrained only without the localized layer and for a square
target grid. -/
def unetSquareFree (cfg : UnetPinConfig) : Bool :=
  decide (¬cfg.localcon_layer ∧ cfg.hr_size.1 = cfg.hr_size.2)

/-- The primary input tensor of `unet_pin` (source lines 162-165). -/
def unetInputX (cfg : UnetPinConfig) : Tensor :=
  if unetSquareFree cfg then .inputX none cfg.n_channels
  else .inputX (some cfg.hr_size) cfg.n_channels

/-- The auxiliary input tensor of `unet_pin` (source lines 156-160); only
attached to the model when `n_aux_channels > 0`. -/
def unetInputS (cfg : UnetPinConfig) : Tensor :=
  if unetSquareFree cfg then .inputS none cfg.n_aux_channels
  else .inputS (some cfg.hr_size) cfg.n_aux_channels

/-- The encoder-loop result of `unet_pin` at validated depth `nb`. -/
def unetEnc (cfg : UnetPinConfig) (dv : Option DVariant) (nb : Nat) : EncResult :=
  encoderLoop cfg.activation cfg.dropout_rate dv cfg.normalization cfg.attention
    0 nb (unetInputX cfg) cfg.n_filters

/-- The bottleneck block of `unet_pin` (source lines 180-182): a `ConvBlock`
at the final filter count with `normalization=None` passed explicitly and no
`attention` keyword passed. -/
def unetBneck (cfg : UnetPinConfig) (dv : Option DVariant) (nb : Nat) : Tensor :=
  .convBlock (unetEnc cfg dv nb).nf cfg.activation cfg.dropout_rate (some dv)
    none none (some "Bottleneck") (unetEnc cfg dv nb).x

/-- The decoder-loop result of `unet_pin` at validated depth `nb`: the loop
runs over the zip of the reversed skip list and the reversed filter list. -/
def unetDec (cfg : UnetPinConfig) (dv : Option DVariant) (nb : Nat) : Tensor × Nat :=
  decoderLoop cfg.decoder_upsampling cfg.activation cfg.dropout_rate dv
    cfg.normalization cfg.attention 0
    ((unetEnc cfg dv nb).skips.reverse.zip (unetEnc cfg dv nb).nfl.reverse)
    (unetBneck cfg dv nb) (unetEnc cfg dv nb).nf

/-- The assembled `unet_pin` model at validated depth `nb`
(source lines 200-225). -/
def unetModel (cfg : UnetPinConfig) (bb : Backbone) (dv : Option DVariant) (nb : Nat) : KModel :=
  let out := modelTail (unetDec cfg dv nb).2 cfg.activation cfg.dropout_rate cfg.normalization
               cfg.n_channels_out cfg.output_activation cfg.localcon_layer
               (decide (0 < cfg.n_aux_channels)) (unetInputS cfg) (unetDec cfg dv nb).1
  if 0 < cfg.n_aux_channels then ⟨[unetInputX cfg, unetInputS cfg], out, backboneName bb ++ "_pin"⟩
  else ⟨[unetInputX cfg], out, backboneName bb ++ "_pin"⟩

/-- Embedding of `unet_pin` (source lines 126-225).  The outer `Option`
models the possible non-termination of `_check_nblocks` (reachable only for
degenerate zero shapes; Python's `range` of a negative validated depth is
empty, hence `Int.toNat`); `Except` carries the categorical-argument errors,
which are raised before the depth check and before any graph node exists. -/
def unetPin (cfg : UnetPinConfig) : Option (Except String KModel) :=
  match checkarg_backbone cfg.backbone_block with
  | .error e => some (.error e)
  | .ok bb =>
    match checkarg_dropout_variant cfg.dropout_variant with
    | .error e => some (.error e)
    | .ok dv =>
      match _check_nblocks cfg.hr_size (cfg.n_blocks : Int) with
      | none => none
      | some nbI => some (.ok (unetModel cfg bb dv nbI.toNat))

/-- The spine of a graph: the chain of nodes reached by repeatedly following
each node's main input (the trunk operand; for the two-operand merge and
concatenation nodes this is the left operand, which is how the source
threads its running variable `x`). -/
def spineList : Tensor → List Tensor
  | t@(.inputX _ _) => [t]
  | t@(.inputS _ _) => [t]
  | t@(.conv2D _ _ _ _ x) => t :: spineList x
  | t@(.convBlock _ _ _ _ _ _ _ x) => t :: spineList x
  | t@(.residualBlock _ _ _ _ _ _ x) => t :: spineList x
  | t@(.denseBlock _ _ _ _ _ _ x) => t :: spineList x
  | t@(.transitionBlock _ x) => t :: spineList x
  | t@(.dropout _ x) => t :: spineList x
  | t@(.gaussianDropout _ x) => t :: spineList x
  | t@(.spatialDropout2D _ x) => t :: spineList x
  | t@(.mcDropout _ x) => t :: spineList x
  | t@(.add x _) => t :: spineList x
  | t@(.concat x _) => t :: spineList x
  | t@(.localizedConvBlock _ _ x) => t :: spineList x
  | t@(.encoderBlockDown _ _ _ _ _ _ _ x) => t :: spineList x
  | t@(.encoderBlockSkip _ _ _ _ _ _ _ x) => t :: spineList x
  | t@(.subpixelConvolutionBlock _ _ _ x) => t :: spineList x
  | t@(.upSampling2D _ _ _ x) => t :: spineList x
  | t@(.deconvolutionBlock _ _ _ _ x) => t :: spineList x
  | t@(.padConcat _ x _) => t :: spineList x

/-- The skip tensors consumed by `PadConcat` nodes along the spine, innermost
(first decoder stage) first. -/
def skipsConsumed (t : Tensor) : List Tensor :=
  (spineList t).filterMap fun n =>
    match n with
    | .padConcat _ _ s => some s
    | _ => none

/-- The filter counts of the decoder-stage convolution blocks along the
spine, recognised structurally as the `ConvBlock`s applied directly to a
`PadConcat` node, innermost (first decoder stage) first. -/
def decoderConvFilters (t : Tensor) : List Nat :=
  (spineList t).filterMap fun n =>
    match n with
    | .convBlock f _ _ _ _ _ _ (.padConcat _ _ _) => some f
    | _ => none

/-- Modelled from the spec: output channel counts of the external block
primitives, per their input/output tensor-shape contracts (a block with a
filter-count argument outputs that many channels; dropout layers and
bilinear `UpSampling2D` preserve channels; merge-by-concatenation sums
channels; the dense block's channel growth is not specified, hence `none`). -/
def channelsOf : Tensor → Option Nat
  | .inputX _ c => some c
  | .inputS _ c => some c
  | .conv2D f _ _ _ _ => some f
  | .convBlock f _ _ _ _ _ _ _ => some f
  | .residualBlock f _ _ _ _ _ _ => some f
  | .denseBlock _ _ _ _ _ _ _ => none
  | .transitionBlock f _ => some f
  | .dropout _ x => channelsOf x
  | .gaussianDropout _ x => channelsOf x
  | .spatialDropout2D _ x => channelsOf x
  | .mcDropout _ x => channelsOf x
  | .add x _ => channelsOf x
  | .concat x y =>
    match channelsOf x, channelsOf y with
    | some a, some b => some (a + b)
    | _, _ => none
  | .localizedConvBlock f _ _ => some f
  | .encoderBlockDown f _ _ _ _ _ _ _ => some f
  | .encoderBlockSkip f _ _ _ _ _ _ _ => some f
  | .subpixelConvolutionBlock _ f _ _ => some f
  | .upSampling2D _ _ _ x => channelsOf x
  | .deconvolutionBlock _ f _ _ _ => some f
  | .padConcat _ x y =>
    match channelsOf x, channelsOf y with
    | some a, some b => some (a + b)
    | _, _ => none

/-- The upsampling nodes along the spine, innermost first: for each, the
method tag, the spatial scale factor, and the output channel count per the
block shape contracts. -/
def upsampleInfo (t : Tensor) : List (String × Nat × Option Nat) :=
  (spineList t).filterMap fun n =>
    match n with
    | .subpixelConvolutionBlock sc f _ _ => some ("spc", sc, some f)
    | .upSampling2D sz _ _ x => some ("rc", sz, channelsOf x)
    | .deconvolutionBlock sc f _ _ _ => some ("dc", sc, some f)
    | _ => none

/-- The keyword arguments recorded at a `ConvBlock` call site
(`attention = none` means the call omitted the `attention` keyword). -/
structure ConvBlockArgs where
  filters : Nat
  activation : Option String
  dropoutRate : ℚ
  dropoutVariant : Option (Option DVariant)
  normalization : Option String
  attention : Option Bool
  deriving DecidableEq

/-- The argument records of the `ConvBlock`s named `Bottleneck` along the
spine (the source builds exactly one). -/
def bottleneckList (t : Tensor) : List ConvBlockArgs :=
  (spineList t).filterMap fun n =>
    match n with
    | .convBlock f a r v nm att (some name) _ =>
      if name = "Bottleneck" then some ⟨f, a, r, v, nm, att⟩ else none
    | _ => none

/-- The input tensors of the `ConvBlock`s named `Bottleneck` along the spine. -/
def bottleneckInputs (t : Tensor) : List Tensor :=
  (spineList t).filterMap fun n =>
    match n with
    | .convBlock _ _ _ _ _ _ (some name) x =>
      if name = "Bottleneck" then some x else none
    | _ => none

/-- The auxiliary-fusion nodes along the spine: a `Concatenate` whose right
operand is a `ConvBlock` applied to the auxiliary input, recorded as the
auxiliary input tensor it fuses. -/
def auxFusions (t : Tensor) : List Tensor :=
  (spineList t).filterMap fun n =>
    match n with
    | .concat _ (.convBlock _ _ _ _ _ _ _ (s@(.inputS _ _))) => some s
    | _ => none

/-- The model built by a `unet_pin` result, if the call terminated without
an argument error. -/
def builtModel? : Option (Except String KModel) → Option KModel
  | some (.ok m) => some m
  | _ => none

/-- The model built by a `net_pin` result, if the call did not error. -/
def builtModelE? : Except String KModel → Option KModel
  | .ok m => some m
  | .error _ => none

/-- The filter count at encoder stage `i` (0-based): `n_filters` doubled `i`
times, capping at 256 — the schedule value the source's loop has in
`n_filters` when stage `i` begins. -/
def cappedDoubling (nf : Nat) : Nat → Nat
  | 0 => nf
  | i + 1 => min 256 (cappedDoubling nf i * 2)

/-- The error string, if any, of a `unet_pin` result. -/
def builderError? : Option (Except String KModel) → Option String
  | some (.error e) => some e
  | _ => none

/-- The error string, if any, of a `net_pin` result. -/
def builderErrorE? : Except String KModel → Option String
  | .error e => some e
  | .ok _ => none

/-- Concrete `unet_pin` configuration: resnet backbone, spatial dropout,
shape (64, 64), requested depth 6 (validated down to 5), rc upsampling. -/
def cfgC5 : UnetPinConfig :=
  ⟨"resnet", 1, 0, 8, 6, (64, 64), 1, some "relu", 1, some "spatial",
    none, false, "rc", none, false⟩

/-- Concrete `unet_pin` configuration: 32 starting filters, depth 4 at
shape (256, 256) — the filter-schedule example. -/
def cfgC4 : UnetPinConfig :=
  ⟨"convnet", 1, 0, 32, 4, (256, 256), 1, some "relu", 1, some "spatial",
    none, false, "rc", none, false⟩

/-- Concrete `unet_pin` configuration: rc upsampling, 32 starting filters,
depth 2 at shape (8, 8). -/
def cfgC6rc : UnetPinConfig :=
  ⟨"convnet", 1, 0, 32, 2, (8, 8), 1, some "relu", 1, some "spatial",
    none, false, "rc", none, false⟩

/-- Concrete `unet_pin` configuration: sub-pixel-convolution upsampling,
32 starting filters, depth 2 at shape (8, 8). -/
def cfgC6spc : UnetPinConfig :=
  ⟨"convnet", 1, 0, 32, 2, (8, 8), 1, some "relu", 1, some "spatial",
    none, false, "spc", none, false⟩

/-- Concrete `unet_pin` configuration with `attention = True`. -/
def cfgC7 : UnetPinConfig :=
  ⟨"convnet", 1, 0, 8, 2, (8, 8), 1, some "relu", 1, some "spatial",
    none, true, "rc", none, false⟩

/-- Concrete `unet_pin` configuration with an unrecognized decoder
upsampling method string. -/
def cfgC3bad : UnetPinConfig :=
  ⟨"convnet", 1, 0, 8, 2, (8, 8), 1, some "relu", 1, some "spatial",
    none, false, "bogus", none, false⟩

/-- Concrete `unet_pin` configuration with an invalid backbone string. -/
def cfgC3badBB : UnetPinConfig :=
  ⟨"transformer", 1, 0, 8, 2, (8, 8), 1, some "relu", 1, some "spatial",
    none, false, "rc", none, false⟩

/-- Concrete `net_pin` configuration with an invalid dropout variant. -/
def netCfgC3badDV : NetPinConfig :=
  ⟨"convnet", 1, 0, 8, 2, (16, 16), 1, some "relu", 1, some "bogus",
    none, false, none, false⟩

/-- Concrete `unet_pin` configuration whose target shape (2, 2) validates
every requested depth down to 0; auxiliary input present. -/
def cfgC10 : UnetPinConfig :=
  ⟨"densenet", 1, 1, 8, 7, (2, 2), 1, some "relu", 1, some "spatial",
    none, false, "rc", none, false⟩

/-- Concrete `net_pin` configuration selecting the Monte-Carlo Gaussian
dropout variant with a positive dropout rate. -/
def netCfgC2 : NetPinConfig :=
  ⟨"convnet", 1, 0, 8, 1, (16, 16), 1, some "relu", 1, some "mcgaussiandrop",
    none, false, none, false⟩

/-- Concrete `net_pin` configuration: auxiliary channels present and the
Monte-Carlo spatial dropout variant selected with a positive rate. -/
def netCfgC8 : NetPinConfig :=
  ⟨"resnet", 1, 2, 8, 1, (16, 16), 1, some "relu", 1, some "mcspatialdrop",
    none, false, none, false⟩

/-- Concrete valid `net_pin` configuration with auxiliary channels and a
non-defective dropout variant. -/
def netCfgC8ok : NetPinConfig :=
  ⟨"resnet", 1, 2, 8, 1, (16, 16), 1, some "relu", 1, some "spatial",
    none, false, none, false⟩

/-- For dimensions at least 1 the loop condition is false at any power at
most -1: the floor division becomes multiplication by at least 2. -/
theorem nblocksCond_of_neg (h w : Nat) (hh : 1 ≤ h) (hw : 1 ≤ w) (p : Int) (hp : p ≤ -1) :
    nblocksCond (h, w) p = false := by
  have h0 : ¬ (0 ≤ p) := by omega
  have hk : 1 ≤ (-p).toNat := by omega
  have hpow : 2 ≤ 2 ^ (-p).toNat := by
    calc 2 = 2 ^ 1 := by norm_num
    _ ≤ 2 ^ (-p).toNat := Nat.pow_le_pow_right (by norm_num) hk
  have h1 : 2 ≤ h * 2 ^ (-p).toNat := le_trans hpow (Nat.le_mul_of_pos_left _ (by omega))
  have h2 : 2 ≤ w * 2 ^ (-p).toNat := le_trans hpow (Nat.le_mul_of_pos_left _ (by omega))
  simp only [nblocksCond, pyFloorDivPow2, h0, if_false, Bool.or_eq_false_iff,
    decide_eq_false_iff_not, not_lt]
  exact ⟨h1, h2⟩

/-- Characterization of the `_check_nblocks` loop, for positive dimensions
and a natural starting power: with fuel at least `d + 2` the loop
terminates, at the first power (counting down from `d`, possibly reaching
`-1`) where the condition fails; every skipped power satisfied the
condition. -/
theorem checkNblocksGo_spec (h w : Nat) (hh : 1 ≤ h) (hw : 1 ≤ w) :
    ∀ (d : Nat) (fuel : Nat), d + 2 ≤ fuel →
      ∃ r : Int, checkNblocksGo (h, w) fuel (d : Int) = some r ∧
        nblocksCond (h, w) r = false ∧ -1 ≤ r ∧ r ≤ (d : Int) ∧
        (∀ q : Int, r < q → q ≤ (d : Int) → nblocksCond (h, w) q = true) := by
  intro d
  induction d with
  | zero =>
    intro fuel hfuel
    obtain ⟨f, rfl⟩ : ∃ f, fuel = f + 2 := ⟨fuel - 2, by omega⟩
    rw [Nat.cast_zero]
    by_cases hc : nblocksCond (h, w) 0 = true
    · have hneg : nblocksCond (h, w) (-1 : Int) = false :=
        nblocksCond_of_neg h w hh hw _ (by norm_num)
      refine ⟨-1, ?_, hneg, le_refl _, by norm_num, ?_⟩
      · rw [checkNblocksGo, if_pos hc]
        rw [show (0 : Int) - 1 = -1 by norm_num]
        rw [checkNblocksGo, if_neg (by rw [hneg]; simp)]
      · intro q hq1 hq2
        have hq : q = 0 := by omega
        rw [hq]; exact hc
    · refine ⟨0, ?_, by simpa using hc, by norm_num, le_refl _, ?_⟩
      · rw [checkNblocksGo, if_neg hc]
      · intro q hq1 hq2; omega
  | succ d ih =>
    intro fuel hfuel
    obtain ⟨f, rfl⟩ : ∃ f, fuel = f + 1 := ⟨fuel - 1, by omega⟩
    rw [show ((d + 1 : Nat) : Int) = (d : Int) + 1 by push_cast; ring]
    by_cases hc : nblocksCond (h, w) ((d : Int) + 1) = true
    · obtain ⟨r, hgo, hcr, hlo, hhi, hmax⟩ := ih f (by omega)
      refine ⟨r, ?_, hcr, hlo, by omega, ?_⟩
      · rw [checkNblocksGo, if_pos hc]
        rw [show (d : Int) + 1 - 1 = (d : Int) by ring]
        exact hgo
      · intro q hq1 hq2
        rcases lt_or_ge q ((d : Int) + 1) with hlt | hge
        · exact hmax q hq1 (by omega)
        · have hq : q = (d : Int) + 1 := by omega
          rw [hq]; exact hc
    · refine ⟨(d : Int) + 1, ?_, by simpa using hc, by omega, le_refl _, ?_⟩
      · rw [checkNblocksGo, if_neg hc]
      · intro q hq1 hq2; omega

/-- Adding fuel does not change a loop run that already terminated. -/
theorem checkNblocksGo_mono (shape : Nat × Nat) :
    ∀ (fuel : Nat) (p r : Int), checkNblocksGo shape fuel p = some r →
      ∀ fuel', fuel ≤ fuel' → checkNblocksGo shape fuel' p = some r := by
  intro fuel
  induction fuel with
  | zero => intro p r hrun; simp [checkNblocksGo] at hrun
  | succ f ih =>
    intro p r hrun fuel' hle
    obtain ⟨f', rfl⟩ : ∃ f', fuel' = f' + 1 := ⟨fuel' - 1, by omega⟩
    rw [checkNblocksGo] at hrun ⊢
    by_cases hc : nblocksCond shape p = true
    · rw [if_pos hc] at hrun ⊢
      exact ih _ _ hrun f' (by omega)
    · rw [if_neg hc] at hrun ⊢
      exact hrun

/-- At a natural power the loop condition is false exactly when both floors
`dim / 2 ^ e` are at least 2. -/
theorem nblocksCond_natCast (h w e : Nat) :
    nblocksCond (h, w) (e : Int) = false ↔ (2 ≤ h / 2 ^ e ∧ 2 ≤ w / 2 ^ e) := by
  have h0 : (0 : Int) ≤ (e : Int) := by positivity
  simp [nblocksCond, pyFloorDivPow2, h0, Int.toNat_natCast, not_lt]

/-- Packaged run of `_check_nblocks` for positive dimensions at a natural
requested power: the wrapper's fuel suffices and any larger fuel agrees. -/
theorem check_nblocks_run (h w d : Nat) (hh : 1 ≤ h) (hw : 1 ≤ w) :
    ∃ r : Int, _check_nblocks (h, w) (d : Int) = some r ∧
      (∀ fuel, d + 2 ≤ fuel → checkNblocksGo (h, w) fuel (d : Int) = some r) ∧
      nblocksCond (h, w) r = false ∧ -1 ≤ r ∧ r ≤ (d : Int) ∧
      (∀ q : Int, r < q → q ≤ (d : Int) → nblocksCond (h, w) q = true) := by
  obtain ⟨r, hgo, hc, hlo, hhi, hmax⟩ := checkNblocksGo_spec h w hh hw d (d + 2) le_rfl
  have hall : ∀ fuel, d + 2 ≤ fuel → checkNblocksGo (h, w) fuel (d : Int) = some r :=
    fun fuel hf => checkNblocksGo_mono _ _ _ _ hgo fuel hf
  refine ⟨r, ?_, hall, hc, hlo, hhi, hmax⟩
  have : ((d : Int).toNat + 2) = d + 2 := by simp [Int.toNat_natCast]
  rw [_check_nblocks, this]
  exact hgo

/-- For dimensions at least 2 the condition already fails at power 0, so a
loop result that skipped power 0 is impossible: the result is non-negative. -/
theorem check_nblocks_result_nonneg (h w d : Nat) (hh : 2 ≤ h) (hw : 2 ≤ w)
    (r : Int) (hlo : -1 ≤ r) (hhi : r ≤ (d : Int))
    (hmax : ∀ q : Int, r < q → q ≤ (d : Int) → nblocksCond (h, w) q = true) :
    0 ≤ r := by
  by_contra hneg
  have h0 : nblocksCond (h, w) ((0 : Nat) : Int) = true := by
    refine hmax 0 (by omega) (by positivity)
  have hfalse : nblocksCond (h, w) ((0 : Nat) : Int) = false := by
    rw [nblocksCond_natCast]
    exact ⟨by simpa using hh, by simpa using hw⟩
  rw [h0] at hfalse
  cases hfalse
/-- Claim C1: for every shape with both dimensions at least 2 and every requested
depth `d ≥ 0`, `_check_nblocks` terminates (under the wrapper fuel and any
larger fuel) and returns the largest depth `e ≤ d` with `h / 2^e ≥ 2` and
`w / 2^e ≥ 2`; in particular it maps shape (64, 64) with requested depth 6
to 5 and shape (256, 256) with requested depth 6 to 6. -/
theorem check_nblocks_largest_depth (h w d : Nat) (hh : 2 ≤ h) (hw : 2 ≤ w) :
    ∃ e : Nat, _check_nblocks (h, w) (d : Int) = some (e : Int) ∧
      (∀ fuel, d + 2 ≤ fuel → checkNblocksGo (h, w) fuel (d : Int) = some (e : Int)) ∧
      e ≤ d ∧ 2 ≤ h / 2 ^ e ∧ 2 ≤ w / 2 ^ e ∧
      (∀ e' : Nat, e' ≤ d → 2 ≤ h / 2 ^ e' → 2 ≤ w / 2 ^ e' → e' ≤ e) ∧
      _check_nblocks (64, 64) 6 = some 5 ∧ _check_nblocks (256, 256) 6 = some 6 := by
  obtain ⟨r, hrun, hall, hc, hlo, hhi, hmax⟩ :=
    check_nblocks_run h w d (by omega) (by omega)
  have hr0 : 0 ≤ r := check_nblocks_result_nonneg h w d hh hw r hlo hhi hmax
  refine ⟨r.toNat, ?_, ?_, ?_, ?_, ?_, ?_, by decide, by decide⟩
  · rwa [Int.toNat_of_nonneg hr0]
  · rw [Int.toNat_of_nonneg hr0]; exact hall
  · omega
  · exact ((nblocksCond_natCast h w r.toNat).mp (by rwa [Int.toNat_of_nonneg hr0])).1
  · exact ((nblocksCond_natCast h w r.toNat).mp (by rwa [Int.toNat_of_nonneg hr0])).2
  · intro e' he'd h1 h2
    by_contra hgt
    have hcond : nblocksCond (h, w) (e' : Int) = true := by
      refine hmax (e' : Int) ?_ (by exact_mod_cast he'd)
      omega
    rw [(nblocksCond_natCast h w e').mpr ⟨h1, h2⟩] at hcond
    cases hcond

/-- Claim C1 witness: the theorem applied at shape (64, 64), requested depth 6. -/
theorem check_nblocks_largest_depth_witness :
    ∃ e : Nat, _check_nblocks (64, 64) ((6 : Nat) : Int) = some (e : Int) ∧
      (∀ fuel, 6 + 2 ≤ fuel → checkNblocksGo (64, 64) fuel ((6 : Nat) : Int) = some (e : Int)) ∧
      e ≤ 6 ∧ 2 ≤ 64 / 2 ^ e ∧ 2 ≤ 64 / 2 ^ e ∧
      (∀ e' : Nat, e' ≤ 6 → 2 ≤ 64 / 2 ^ e' → 2 ≤ 64 / 2 ^ e' → e' ≤ e) ∧
      _check_nblocks (64, 64) 6 = some 5 ∧ _check_nblocks (256, 256) 6 = some 6 :=
  check_nblocks_largest_depth 64 64 6 (by decide) (by decide)

/-- Claim C9 counterexample: shape (1, 1) has both dimensions positive, yet
`_check_nblocks((1, 1), 0)` returns -1, a negative depth (the loop body
runs at power 0 and the condition is checked again at power -1, where
Python's `1 // 2.0**-1 == 2.0` stops it). -/
theorem check_nblocks_positive_dims_negative_result :
    _check_nblocks (1, 1) 0 = some (-1) ∧ (-1 : Int) < 0 := by
  exact ⟨by decide, by decide⟩

/-- Claim C9 (amended): for every shape with both dimensions positive and every
requested depth `d ≥ 0`, `_check_nblocks` terminates (any fuel at least
`d + 2` gives the same answer) and returns a depth at least -1; the result
is non-negative when both dimensions are at least 2 (not for merely
positive dimensions, see the counterexample). -/
theorem check_nblocks_terminates (h w d : Nat) (hh : 1 ≤ h) (hw : 1 ≤ w) :
    ∃ r : Int, _check_nblocks (h, w) (d : Int) = some r ∧
      (∀ fuel, d + 2 ≤ fuel → checkNblocksGo (h, w) fuel (d : Int) = some r) ∧
      -1 ≤ r ∧ (2 ≤ h → 2 ≤ w → 0 ≤ r) := by
  obtain ⟨r, hrun, hall, hc, hlo, hhi, hmax⟩ := check_nblocks_run h w d hh hw
  exact ⟨r, hrun, hall, hlo,
    fun h2 w2 => check_nblocks_result_nonneg h w d h2 w2 r hlo hhi hmax⟩

/-- Claim C9 witness: the amended theorem applied at shape (2, 3), depth 4. -/
theorem check_nblocks_terminates_witness :
    ∃ r : Int, _check_nblocks (2, 3) ((4 : Nat) : Int) = some r ∧
      (∀ fuel, 4 + 2 ≤ fuel → checkNblocksGo (2, 3) fuel ((4 : Nat) : Int) = some r) ∧
      -1 ≤ r ∧ (2 ≤ 2 → 2 ≤ 3 → 0 ≤ r) :=
  check_nblocks_terminates 2 3 4 (by decide) (by decide)

theorem skipsConsumed_decoderStage (us : String) (nf : Nat) (act : Option String)
    (dr : ℚ) (dv : Option DVariant) (nm : Option String) (att : Bool) (j : Nat)
    (skip x : Tensor) :
    skipsConsumed (decoderStage us nf act dr dv nm att j skip x) =
      skip :: skipsConsumed x := by
  unfold decoderStage upsampleStep
  split_ifs <;> simp [skipsConsumed, spineList]

theorem skipsConsumed_decoderLoop (us : String) (act : Option String) (dr : ℚ)
    (dv : Option DVariant) (nm : Option String) (att : Bool) :
    ∀ (l : List (Tensor × Nat)) (j : Nat) (x : Tensor) (nf : Nat),
      skipsConsumed (decoderLoop us act dr dv nm att j l x nf).1 =
        (l.map Prod.fst).reverse ++ skipsConsumed x := by
  intro l
  induction l with
  | nil => intro j x nf; simp [decoderLoop]
  | cons p rest ih =>
    intro j x nf
    obtain ⟨skip, nf'⟩ := p
    rw [decoderLoop, ih (j + 1) (decoderStage us nf' act dr dv nm att j skip x) nf',
      skipsConsumed_decoderStage]
    simp

theorem decoderConvFilters_decoderStage (us : String) (nf : Nat) (act : Option String)
    (dr : ℚ) (dv : Option DVariant) (nm : Option String) (att : Bool) (j : Nat)
    (skip x : Tensor) :
    decoderConvFilters (decoderStage us nf act dr dv nm att j skip x) =
      nf :: decoderConvFilters x := by
  unfold decoderStage upsampleStep
  split_ifs <;> simp [decoderConvFilters, spineList]

theorem decoderConvFilters_decoderLoop (us : String) (act : Option String) (dr : ℚ)
    (dv : Option DVariant) (nm : Option String) (att : Bool) :
    ∀ (l : List (Tensor × Nat)) (j : Nat) (x : Tensor) (nf : Nat),
      decoderConvFilters (decoderLoop us act dr dv nm att j l x nf).1 =
        (l.map Prod.snd).reverse ++ decoderConvFilters x := by
  intro l
  induction l with
  | nil => intro j x nf; simp [decoderLoop]
  | cons p rest ih =>
    intro j x nf
    obtain ⟨skip, nf'⟩ := p
    rw [decoderLoop, ih (j + 1) (decoderStage us nf' act dr dv nm att j skip x) nf',
      decoderConvFilters_decoderStage]
    simp

theorem auxFusions_decoderStage (us : String) (nf : Nat) (act : Option String)
    (dr : ℚ) (dv : Option DVariant) (nm : Option String) (att : Bool) (j : Nat)
    (skip x : Tensor) :
    auxFusions (decoderStage us nf act dr dv nm att j skip x) = auxFusions x := by
  unfold decoderStage upsampleStep
  split_ifs <;> simp [auxFusions, spineList]

theorem auxFusions_decoderLoop (us : String) (act : Option String) (dr : ℚ)
    (dv : Option DVariant) (nm : Option String) (att : Bool) :
    ∀ (l : List (Tensor × Nat)) (j : Nat) (x : Tensor) (nf : Nat),
      auxFusions (decoderLoop us act dr dv nm att j l x nf).1 = auxFusions x := by
  intro l
  induction l with
  | nil => intro j x nf; simp [decoderLoop]
  | cons p rest ih =>
    intro j x nf
    obtain ⟨skip, nf'⟩ := p
    rw [decoderLoop, ih (j + 1) (decoderStage us nf' act dr dv nm att j skip x) nf',
      auxFusions_decoderStage]

theorem decoderStage_name_ne_bottleneck (s : String) :
    ("DecoderConvBlock" ++ s) = "Bottleneck" → False := by
  intro heq
  have hlen := congrArg String.length heq
  rw [String.length_append] at hlen
  have h16 : String.length "DecoderConvBlock" = 16 := by decide
  have h10 : String.length "Bottleneck" = 10 := by decide
  omega

theorem bottleneckList_decoderStage (us : String) (nf : Nat) (act : Option String)
    (dr : ℚ) (dv : Option DVariant) (nm : Option String) (att : Bool) (j : Nat)
    (skip x : Tensor) :
    bottleneckList (decoderStage us nf act dr dv nm att j skip x) =
      bottleneckList x := by
  have hne : ¬ ("DecoderConvBlock" ++ toString (j + 1)) = "Bottleneck" :=
    fun h => decoderStage_name_ne_bottleneck _ h
  unfold decoderStage upsampleStep
  split_ifs <;> simp [bottleneckList, spineList, List.filterMap_cons, hne]

theorem bottleneckList_decoderLoop (us : String) (act : Option String) (dr : ℚ)
    (dv : Option DVariant) (nm : Option String) (att : Bool) :
    ∀ (l : List (Tensor × Nat)) (j : Nat) (x : Tensor) (nf : Nat),
      bottleneckList (decoderLoop us act dr dv nm att j l x nf).1 = bottleneckList x := by
  intro l
  induction l with
  | nil => intro j x nf; simp [decoderLoop]
  | cons p rest ih =>
    intro j x nf
    obtain ⟨skip, nf'⟩ := p
    rw [decoderLoop, ih (j + 1) (decoderStage us nf' act dr dv nm att j skip x) nf',
      bottleneckList_decoderStage]

theorem bottleneckInputs_decoderStage (us : String) (nf : Nat) (act : Option String)
    (dr : ℚ) (dv : Option DVariant) (nm : Option String) (att : Bool) (j : Nat)
    (skip x : Tensor) :
    bottleneckInputs (decoderStage us nf act dr dv nm att j skip x) =
      bottleneckInputs x := by
  have hne : ¬ ("DecoderConvBlock" ++ toString (j + 1)) = "Bottleneck" :=
    fun h => decoderStage_name_ne_bottleneck _ h
  unfold decoderStage upsampleStep
  split_ifs <;> simp [bottleneckInputs, spineList, List.filterMap_cons, hne]

theorem bottleneckInputs_decoderLoop (us : String) (act : Option String) (dr : ℚ)
    (dv : Option DVariant) (nm : Option String) (att : Bool) :
    ∀ (l : List (Tensor × Nat)) (j : Nat) (x : Tensor) (nf : Nat),
      bottleneckInputs (decoderLoop us act dr dv nm att j l x nf).1 = bottleneckInputs x := by
  intro l
  induction l with
  | nil => intro j x nf; simp [decoderLoop]
  | cons p rest ih =>
    intro j x nf
    obtain ⟨skip, nf'⟩ := p
    rw [decoderLoop, ih (j + 1) (decoderStage us nf' act dr dv nm att j skip x) nf',
      bottleneckInputs_decoderStage]

theorem upsampleInfo_decoderStage_spc (nf : Nat) (act : Option String)
    (dr : ℚ) (dv : Option DVariant) (nm : Option String) (att : Bool) (j : Nat)
    (skip x : Tensor) :
    upsampleInfo (decoderStage "spc" nf act dr dv nm att j skip x) =
      ("spc", 2, some nf) :: upsampleInfo x := by
  unfold decoderStage upsampleStep
  simp [upsampleInfo, spineList]

theorem upsampleInfo_decoderStage_dc (nf : Nat) (act : Option String)
    (dr : ℚ) (dv : Option DVariant) (nm : Option String) (att : Bool) (j : Nat)
    (skip x : Tensor) :
    upsampleInfo (decoderStage "dc" nf act dr dv nm att j skip x) =
      ("dc", 2, some nf) :: upsampleInfo x := by
  unfold decoderStage upsampleStep
  simp [upsampleInfo, spineList]

theorem upsampleInfo_decoderStage_rc (nf : Nat) (act : Option String)
    (dr : ℚ) (dv : Option DVariant) (nm : Option String) (att : Bool) (j : Nat)
    (skip x : Tensor) :
    upsampleInfo (decoderStage "rc" nf act dr dv nm att j skip x) =
      ("rc", 2, channelsOf x) :: upsampleInfo x := by
  unfold decoderStage upsampleStep
  simp [upsampleInfo, spineList]

theorem upsampleInfo_decoderStage_other (us : String) (nf : Nat) (act : Option String)
    (dr : ℚ) (dv : Option DVariant) (nm : Option String) (att : Bool) (j : Nat)
    (skip x : Tensor) (h1 : us ≠ "spc") (h2 : us ≠ "rc") (h3 : us ≠ "dc") :
    upsampleInfo (decoderStage us nf act dr dv nm att j skip x) = upsampleInfo x := by
  unfold decoderStage upsampleStep
  rw [if_neg h1, if_neg h2, if_neg h3]
  simp [upsampleInfo, spineList]

theorem upsampleInfo_decoderLoop_spc (act : Option String) (dr : ℚ)
    (dv : Option DVariant) (nm : Option String) (att : Bool) :
    ∀ (l : List (Tensor × Nat)) (j : Nat) (x : Tensor) (nf : Nat),
      upsampleInfo (decoderLoop "spc" act dr dv nm att j l x nf).1 =
        ((l.map Prod.snd).reverse).map (fun f => ("spc", 2, some f)) ++ upsampleInfo x := by
  intro l
  induction l with
  | nil => intro j x nf; simp [decoderLoop]
  | cons p rest ih =>
    intro j x nf
    obtain ⟨skip, nf'⟩ := p
    rw [decoderLoop, ih (j + 1) (decoderStage "spc" nf' act dr dv nm att j skip x) nf',
      upsampleInfo_decoderStage_spc]
    simp

theorem upsampleInfo_decoderLoop_dc (act : Option String) (dr : ℚ)
    (dv : Option DVariant) (nm : Option String) (att : Bool) :
    ∀ (l : List (Tensor × Nat)) (j : Nat) (x : Tensor) (nf : Nat),
      upsampleInfo (decoderLoop "dc" act dr dv nm att j l x nf).1 =
        ((l.map Prod.snd).reverse).map (fun f => ("dc", 2, some f)) ++ upsampleInfo x := by
  intro l
  induction l with
  | nil => intro j x nf; simp [decoderLoop]
  | cons p rest ih =>
    intro j x nf
    obtain ⟨skip, nf'⟩ := p
    rw [decoderLoop, ih (j + 1) (decoderStage "dc" nf' act dr dv nm att j skip x) nf',
      upsampleInfo_decoderStage_dc]
    simp

theorem upsampleInfo_decoderLoop_rc_shape (act : Option String) (dr : ℚ)
    (dv : Option DVariant) (nm : Option String) (att : Bool) :
    ∀ (l : List (Tensor × Nat)) (j : Nat) (x : Tensor) (nf : Nat),
      ∀ e ∈ upsampleInfo (decoderLoop "rc" act dr dv nm att j l x nf).1,
        (e.1 = "rc" ∧ e.2.1 = 2) ∨ e ∈ upsampleInfo x := by
  intro l
  induction l with
  | nil => intro j x nf e he; right; simpa [decoderLoop] using he
  | cons p rest ih =>
    intro j x nf e he
    obtain ⟨skip, nf'⟩ := p
    rw [decoderLoop] at he
    rcases ih (j + 1) (decoderStage "rc" nf' act dr dv nm att j skip x) nf' e he with h | h
    · exact Or.inl h
    · rw [upsampleInfo_decoderStage_rc] at h
      rcases List.mem_cons.mp h with h | h
      · subst h; exact Or.inl ⟨rfl, rfl⟩
      · exact Or.inr h

theorem upsampleInfo_decoderLoop_other (us : String) (act : Option String) (dr : ℚ)
    (dv : Option DVariant) (nm : Option String) (att : Bool)
    (h1 : us ≠ "spc") (h2 : us ≠ "rc") (h3 : us ≠ "dc") :
    ∀ (l : List (Tensor × Nat)) (j : Nat) (x : Tensor) (nf : Nat),
      upsampleInfo (decoderLoop us act dr dv nm att j l x nf).1 = upsampleInfo x := by
  intro l
  induction l with
  | nil => intro j x nf; simp [decoderLoop]
  | cons p rest ih =>
    intro j x nf
    obtain ⟨skip, nf'⟩ := p
    rw [decoderLoop, ih (j + 1) (decoderStage us nf' act dr dv nm att j skip x) nf',
      upsampleInfo_decoderStage_other us nf' act dr dv nm att j skip x h1 h2 h3]

theorem decoderLoop_fst_convBlock (us : String) (act : Option String) (dr : ℚ)
    (dv : Option DVariant) (nm : Option String) (att : Bool) :
    ∀ (l : List (Tensor × Nat)) (j : Nat) (x : Tensor) (nf : Nat),
      (∃ f a r v n at' name y, x = Tensor.convBlock f a r v n at' name y) →
      ∃ f a r v n at' name y,
        (decoderLoop us act dr dv nm att j l x nf).1 = Tensor.convBlock f a r v n at' name y := by
  intro l
  induction l with
  | nil => intro j x nf hx; simpa [decoderLoop] using hx
  | cons p rest ih =>
    intro j x nf hx
    obtain ⟨skip, nf'⟩ := p
    rw [decoderLoop]
    exact ih (j + 1) (decoderStage us nf' act dr dv nm att j skip x) nf'
      ⟨nf', act, dr, some dv, nm, some att,
        some ("DecoderConvBlock" ++ toString (j + 1)), _, rfl⟩

theorem skipsConsumed_encoderLoop (act : Option String) (dr : ℚ) (dv : Option DVariant)
    (nm : Option String) (att : Bool) :
    ∀ (n i : Nat) (x : Tensor) (nf : Nat),
      skipsConsumed (encoderLoop act dr dv nm att i n x nf).x = skipsConsumed x := by
  intro n
  induction n with
  | zero => intro i x nf; simp [encoderLoop]
  | succ n ih =>
    intro i x nf
    rw [encoderLoop]
    simp only [ih]
    simp [skipsConsumed, spineList]

theorem decoderConvFilters_encoderLoop (act : Option String) (dr : ℚ) (dv : Option DVariant)
    (nm : Option String) (att : Bool) :
    ∀ (n i : Nat) (x : Tensor) (nf : Nat),
      decoderConvFilters (encoderLoop act dr dv nm att i n x nf).x = decoderConvFilters x := by
  intro n
  induction n with
  | zero => intro i x nf; simp [encoderLoop]
  | succ n ih =>
    intro i x nf
    rw [encoderLoop]
    simp only [ih]
    simp [decoderConvFilters, spineList]

theorem upsampleInfo_encoderLoop (act : Option String) (dr : ℚ) (dv : Option DVariant)
    (nm : Option String) (att : Bool) :
    ∀ (n i : Nat) (x : Tensor) (nf : Nat),
      upsampleInfo (encoderLoop act dr dv nm att i n x nf).x = upsampleInfo x := by
  intro n
  induction n with
  | zero => intro i x nf; simp [encoderLoop]
  | succ n ih =>
    intro i x nf
    rw [encoderLoop]
    simp only [ih]
    simp [upsampleInfo, spineList]

theorem bottleneckList_encoderLoop (act : Option String) (dr : ℚ) (dv : Option DVariant)
    (nm : Option String) (att : Bool) :
    ∀ (n i : Nat) (x : Tensor) (nf : Nat),
      bottleneckList (encoderLoop act dr dv nm att i n x nf).x = bottleneckList x := by
  intro n
  induction n with
  | zero => intro i x nf; simp [encoderLoop]
  | succ n ih =>
    intro i x nf
    rw [encoderLoop]
    simp only [ih]
    simp [bottleneckList, spineList]

theorem bottleneckInputs_encoderLoop (act : Option String) (dr : ℚ) (dv : Option DVariant)
    (nm : Option String) (att : Bool) :
    ∀ (n i : Nat) (x : Tensor) (nf : Nat),
      bottleneckInputs (encoderLoop act dr dv nm att i n x nf).x = bottleneckInputs x := by
  intro n
  induction n with
  | zero => intro i x nf; simp [encoderLoop]
  | succ n ih =>
    intro i x nf
    rw [encoderLoop]
    simp only [ih]
    simp [bottleneckInputs, spineList]

theorem auxFusions_encoderLoop (act : Option String) (dr : ℚ) (dv : Option DVariant)
    (nm : Option String) (att : Bool) :
    ∀ (n i : Nat) (x : Tensor) (nf : Nat),
      auxFusions (encoderLoop act dr dv nm att i n x nf).x = auxFusions x := by
  intro n
  induction n with
  | zero => intro i x nf; simp [encoderLoop]
  | succ n ih =>
    intro i x nf
    rw [encoderLoop]
    simp only [ih]
    simp [auxFusions, spineList]

theorem cappedDoubling_shift (nf : Nat) :
    ∀ i : Nat, cappedDoubling (min 256 (nf * 2)) i = cappedDoubling nf (i + 1) := by
  intro i
  induction i with
  | zero => rfl
  | succ i ih => simp only [cappedDoubling, ih]

theorem encoderLoop_nf (act : Option String) (dr : ℚ) (dv : Option DVariant)
    (nm : Option String) (att : Bool) :
    ∀ (n i : Nat) (x : Tensor) (nf : Nat),
      (encoderLoop act dr dv nm att i n x nf).nf = cappedDoubling nf n := by
  intro n
  induction n with
  | zero => intro i x nf; simp [encoderLoop, cappedDoubling]
  | succ n ih =>
    intro i x nf
    rw [encoderLoop]
    simp only [ih]
    rw [cappedDoubling_shift]

theorem encoderLoop_nfl (act : Option String) (dr : ℚ) (dv : Option DVariant)
    (nm : Option String) (att : Bool) :
    ∀ (n i : Nat) (x : Tensor) (nf : Nat),
      (encoderLoop act dr dv nm att i n x nf).nfl =
        (List.range n).map (cappedDoubling nf) := by
  intro n
  induction n with
  | zero => intro i x nf; simp [encoderLoop]
  | succ n ih =>
    intro i x nf
    rw [encoderLoop]
    simp only [ih]
    rw [List.range_succ_eq_map]
    simp only [List.map_cons, List.map_map]
    refine congrArg (fun l => _ :: l) ?_
    apply List.map_congr_left
    intro j hj
    show cappedDoubling (min 256 (nf * 2)) j = (cappedDoubling nf ∘ Nat.succ) j
    rw [cappedDoubling_shift]
    rfl

theorem encoderLoop_skips_length (act : Option String) (dr : ℚ) (dv : Option DVariant)
    (nm : Option String) (att : Bool) :
    ∀ (n i : Nat) (x : Tensor) (nf : Nat),
      (encoderLoop act dr dv nm att i n x nf).skips.length = n := by
  intro n
  induction n with
  | zero => intro i x nf; simp [encoderLoop]
  | succ n ih =>
    intro i x nf
    rw [encoderLoop]
    simp [ih]

theorem encoderLoop_x_shape (act : Option String) (dr : ℚ) (dv : Option DVariant)
    (nm : Option String) (att : Bool) :
    ∀ (n i : Nat) (x : Tensor) (nf : Nat),
      (encoderLoop act dr dv nm att i n x nf).x = x ∨
        ∃ f a r v m at' ns y,
          (encoderLoop act dr dv nm att i n x nf).x =
            Tensor.encoderBlockDown f a r v m at' ns y := by
  intro n
  induction n with
  | zero => intro i x nf; left; simp [encoderLoop]
  | succ n ih =>
    intro i x nf
    rw [encoderLoop]
    rcases ih (i + 1) (Tensor.encoderBlockDown nf act dr dv nm att (toString (i + 1)) x)
        (min 256 (nf * 2)) with h | ⟨f, a, r, v, m, at', ns, y, h⟩
    · right
      exact ⟨nf, act, dr, dv, nm, att, toString (i + 1), x, h⟩
    · right
      exact ⟨f, a, r, v, m, at', ns, y, h⟩

theorem skipsConsumed_modelTail (nf : Nat) (act : Option String) (dr : ℚ)
    (nm : Option String) (nout : Nat) (oact : Option String) (lc aux : Bool)
    (s x : Tensor) :
    skipsConsumed (modelTail nf act dr nm nout oact lc aux s x) = skipsConsumed x := by
  cases lc <;> cases aux <;> simp [modelTail, skipsConsumed, spineList]

theorem upsampleInfo_modelTail (nf : Nat) (act : Option String) (dr : ℚ)
    (nm : Option String) (nout : Nat) (oact : Option String) (lc aux : Bool)
    (s x : Tensor) :
    upsampleInfo (modelTail nf act dr nm nout oact lc aux s x) = upsampleInfo x := by
  cases lc <;> cases aux <;> simp [modelTail, upsampleInfo, spineList]

theorem bottleneckList_modelTail (nf : Nat) (act : Option String) (dr : ℚ)
    (nm : Option String) (nout : Nat) (oact : Option String) (lc aux : Bool)
    (s x : Tensor) :
    bottleneckList (modelTail nf act dr nm nout oact lc aux s x) = bottleneckList x := by
  cases lc <;> cases aux <;> simp [modelTail, bottleneckList, spineList]

theorem bottleneckInputs_modelTail (nf : Nat) (act : Option String) (dr : ℚ)
    (nm : Option String) (nout : Nat) (oact : Option String) (lc aux : Bool)
    (s x : Tensor) :
    bottleneckInputs (modelTail nf act dr nm nout oact lc aux s x) = bottleneckInputs x := by
  cases lc <;> cases aux <;> simp [modelTail, bottleneckInputs, spineList]

set_option maxHeartbeats 1000000 in
theorem auxFusions_modelTail (nf : Nat) (act : Option String) (dr : ℚ)
    (nm : Option String) (nout : Nat) (oact : Option String) (lc aux : Bool)
    (sp : Option (Nat × Nat)) (c : Nat) (x : Tensor) :
    auxFusions (modelTail nf act dr nm nout oact lc aux (.inputS sp c) x) =
      (if aux then [Tensor.inputS sp c] else []) ++ auxFusions x := by
  cases lc <;> cases aux <;> simp [modelTail, auxFusions, spineList]

set_option maxHeartbeats 1000000 in
theorem decoderConvFilters_modelTail_conv (nf : Nat) (act : Option String) (dr : ℚ)
    (nm : Option String) (nout : Nat) (oact : Option String) (lc aux : Bool)
    (s : Tensor) (f : Nat) (a : Option String) (r : ℚ) (v : Option (Option DVariant))
    (n : Option String) (att : Option Bool) (name : Option String) (y : Tensor) :
    decoderConvFilters (modelTail nf act dr nm nout oact lc aux s
        (.convBlock f a r v n att name y)) =
      decoderConvFilters (.convBlock f a r v n att name y) := by
  cases lc <;> cases aux <;> simp [modelTail, decoderConvFilters, spineList]

theorem unetModel_output (cfg : UnetPinConfig) (bb : Backbone) (dv : Option DVariant) (nb : Nat) :
    (unetModel cfg bb dv nb).output =
      modelTail (unetDec cfg dv nb).2 cfg.activation cfg.dropout_rate cfg.normalization
        cfg.n_channels_out cfg.output_activation cfg.localcon_layer
        (decide (0 < cfg.n_aux_channels)) (unetInputS cfg) (unetDec cfg dv nb).1 := by
  unfold unetModel
  split_ifs <;> rfl

theorem unetEnc_skips_length (cfg : UnetPinConfig) (dv : Option DVariant) (nb : Nat) :
    (unetEnc cfg dv nb).skips.length = nb := by
  unfold unetEnc
  rw [encoderLoop_skips_length]

theorem unetEnc_nfl (cfg : UnetPinConfig) (dv : Option DVariant) (nb : Nat) :
    (unetEnc cfg dv nb).nfl = (List.range nb).map (cappedDoubling cfg.n_filters) := by
  unfold unetEnc
  rw [encoderLoop_nfl]

theorem unetEnc_nfl_length (cfg : UnetPinConfig) (dv : Option DVariant) (nb : Nat) :
    (unetEnc cfg dv nb).nfl.length = nb := by
  rw [unetEnc_nfl]
  simp

theorem unetEnc_nf (cfg : UnetPinConfig) (dv : Option DVariant) (nb : Nat) :
    (unetEnc cfg dv nb).nf = cappedDoubling cfg.n_filters nb := by
  unfold unetEnc
  rw [encoderLoop_nf]

theorem skipsConsumed_unetBneck (cfg : UnetPinConfig) (dv : Option DVariant) (nb : Nat) :
    skipsConsumed (unetBneck cfg dv nb) = [] := by
  unfold unetBneck
  rw [show skipsConsumed (Tensor.convBlock (unetEnc cfg dv nb).nf cfg.activation
      cfg.dropout_rate (some dv) none none (some "Bottleneck") (unetEnc cfg dv nb).x) =
      skipsConsumed (unetEnc cfg dv nb).x from by simp [skipsConsumed, spineList]]
  unfold unetEnc
  rw [skipsConsumed_encoderLoop]
  unfold unetInputX
  split_ifs <;> simp [skipsConsumed, spineList]

theorem skipsConsumed_unetModel (cfg : UnetPinConfig) (bb : Backbone)
    (dv : Option DVariant) (nb : Nat) :
    skipsConsumed (unetModel cfg bb dv nb).output = (unetEnc cfg dv nb).skips := by
  rw [unetModel_output, skipsConsumed_modelTail]
  unfold unetDec
  rw [skipsConsumed_decoderLoop]
  rw [List.map_fst_zip _ _ (by
    rw [List.length_reverse, List.length_reverse, unetEnc_skips_length, unetEnc_nfl_length])]
  rw [List.reverse_reverse, skipsConsumed_unetBneck, List.append_nil]

theorem decoderConvFilters_convBlock (f : Nat) (a : Option String) (r : ℚ)
    (v : Option (Option DVariant)) (n : Option String) (att : Option Bool)
    (name : Option String) (y : Tensor) (hy : ∀ ns p q, y ≠ Tensor.padConcat ns p q) :
    decoderConvFilters (Tensor.convBlock f a r v n att name y) = decoderConvFilters y := by
  cases y <;> simp_all [decoderConvFilters, spineList]

theorem decoderConvFilters_unetBneck (cfg : UnetPinConfig) (dv : Option DVariant) (nb : Nat) :
    decoderConvFilters (unetBneck cfg dv nb) = [] := by
  unfold unetBneck
  rcases encoderLoop_x_shape cfg.activation cfg.dropout_rate dv cfg.normalization
      cfg.attention nb 0 (unetInputX cfg) cfg.n_filters with hsh | ⟨f, a, r, v, m, at', ns, y, hsh⟩
  · rw [show (unetEnc cfg dv nb).x = (encoderLoop cfg.activation cfg.dropout_rate dv
      cfg.normalization cfg.attention 0 nb (unetInputX cfg) cfg.n_filters).x from rfl, hsh]
    unfold unetInputX
    split_ifs <;> simp [decoderConvFilters, spineList]
  · rw [show (unetEnc cfg dv nb).x = (encoderLoop cfg.activation cfg.dropout_rate dv
      cfg.normalization cfg.attention 0 nb (unetInputX cfg) cfg.n_filters).x from rfl, hsh]
    rw [decoderConvFilters_convBlock _ _ _ _ _ _ _ _ (by intro ns' p q h; cases h)]
    rw [← hsh]
    rw [show (encoderLoop cfg.activation cfg.dropout_rate dv cfg.normalization
      cfg.attention 0 nb (unetInputX cfg) cfg.n_filters).x = (unetEnc cfg dv nb).x from rfl]
    unfold unetEnc
    rw [decoderConvFilters_encoderLoop]
    unfold unetInputX
    split_ifs <;> simp [decoderConvFilters, spineList]

theorem decoderConvFilters_unetModel (cfg : UnetPinConfig) (bb : Backbone)
    (dv : Option DVariant) (nb : Nat) :
    decoderConvFilters (unetModel cfg bb dv nb).output = (unetEnc cfg dv nb).nfl := by
  rw [unetModel_output]
  obtain ⟨f, a, r, v, n, at', name, y, hdec⟩ :=
    decoderLoop_fst_convBlock cfg.decoder_upsampling cfg.activation cfg.dropout_rate dv
      cfg.normalization cfg.attention
      ((unetEnc cfg dv nb).skips.reverse.zip (unetEnc cfg dv nb).nfl.reverse) 0
      (unetBneck cfg dv nb) (unetEnc cfg dv nb).nf
      ⟨(unetEnc cfg dv nb).nf, cfg.activation, cfg.dropout_rate, some dv, none, none,
        some "Bottleneck", (unetEnc cfg dv nb).x, rfl⟩
  have hdec' : (unetDec cfg dv nb).1 = Tensor.convBlock f a r v n at' name y := hdec
  rw [hdec', decoderConvFilters_modelTail_conv, ← hdec']
  unfold unetDec
  rw [decoderConvFilters_decoderLoop]
  rw [List.map_snd_zip _ _ (by
    rw [List.length_reverse, List.length_reverse, unetEnc_skips_length, unetEnc_nfl_length])]
  rw [List.reverse_reverse, decoderConvFilters_unetBneck, List.append_nil]

theorem bottleneckList_unetBneck (cfg : UnetPinConfig) (dv : Option DVariant) (nb : Nat) :
    bottleneckList (unetBneck cfg dv nb) =
      [⟨(unetEnc cfg dv nb).nf, cfg.activation, cfg.dropout_rate, some dv, none, none⟩] := by
  unfold unetBneck
  rw [show bottleneckList (Tensor.convBlock (unetEnc cfg dv nb).nf cfg.activation
      cfg.dropout_rate (some dv) none none (some "Bottleneck") (unetEnc cfg dv nb).x) =
      ⟨(unetEnc cfg dv nb).nf, cfg.activation, cfg.dropout_rate, some dv, none, none⟩ ::
        bottleneckList (unetEnc cfg dv nb).x from by
    simp [bottleneckList, spineList, List.filterMap_cons]]
  unfold unetEnc
  rw [bottleneckList_encoderLoop]
  unfold unetInputX
  split_ifs <;> simp [bottleneckList, spineList]

theorem bottleneckList_unetModel (cfg : UnetPinConfig) (bb : Backbone)
    (dv : Option DVariant) (nb : Nat) :
    bottleneckList (unetModel cfg bb dv nb).output =
      [⟨cappedDoubling cfg.n_filters nb, cfg.activation, cfg.dropout_rate,
        some dv, none, none⟩] := by
  rw [unetModel_output, bottleneckList_modelTail]
  unfold unetDec
  rw [bottleneckList_decoderLoop, bottleneckList_unetBneck, unetEnc_nf]

theorem bottleneckInputs_unetBneck (cfg : UnetPinConfig) (dv : Option DVariant) (nb : Nat) :
    bottleneckInputs (unetBneck cfg dv nb) = [(unetEnc cfg dv nb).x] := by
  unfold unetBneck
  rw [show bottleneckInputs (Tensor.convBlock (unetEnc cfg dv nb).nf cfg.activation
      cfg.dropout_rate (some dv) none none (some "Bottleneck") (unetEnc cfg dv nb).x) =
      (unetEnc cfg dv nb).x :: bottleneckInputs (unetEnc cfg dv nb).x from by
    simp [bottleneckInputs, spineList, List.filterMap_cons]]
  unfold unetEnc
  rw [bottleneckInputs_encoderLoop]
  unfold unetInputX
  split_ifs <;> simp [bottleneckInputs, spineList]

theorem bottleneckInputs_unetModel (cfg : UnetPinConfig) (bb : Backbone)
    (dv : Option DVariant) (nb : Nat) :
    bottleneckInputs (unetModel cfg bb dv nb).output = [(unetEnc cfg dv nb).x] := by
  rw [unetModel_output, bottleneckInputs_modelTail]
  unfold unetDec
  rw [bottleneckInputs_decoderLoop, bottleneckInputs_unetBneck]

theorem auxFusions_unetBneck (cfg : UnetPinConfig) (dv : Option DVariant) (nb : Nat) :
    auxFusions (unetBneck cfg dv nb) = [] := by
  unfold unetBneck
  rw [show auxFusions (Tensor.convBlock (unetEnc cfg dv nb).nf cfg.activation
      cfg.dropout_rate (some dv) none none (some "Bottleneck") (unetEnc cfg dv nb).x) =
      auxFusions (unetEnc cfg dv nb).x from by simp [auxFusions, spineList]]
  unfold unetEnc
  rw [auxFusions_encoderLoop]
  unfold unetInputX
  split_ifs <;> simp [auxFusions, spineList]

theorem auxFusions_unetModel (cfg : UnetPinConfig) (bb : Backbone)
    (dv : Option DVariant) (nb : Nat) :
    auxFusions (unetModel cfg bb dv nb).output =
      (if 0 < cfg.n_aux_channels then [unetInputS cfg] else []) := by
  rw [unetModel_output]
  have hs : ∃ sp c, unetInputS cfg = Tensor.inputS sp c := by
    unfold unetInputS
    split_ifs <;> exact ⟨_, _, rfl⟩
  obtain ⟨sp, c, hs⟩ := hs
  rw [hs, auxFusions_modelTail]
  unfold unetDec
  rw [auxFusions_decoderLoop, auxFusions_unetBneck, List.append_nil, ← hs]
  by_cases ha : 0 < cfg.n_aux_channels <;> simp [ha]

theorem unetModel_inputs (cfg : UnetPinConfig) (bb : Backbone)
    (dv : Option DVariant) (nb : Nat) :
    (unetModel cfg bb dv nb).inputs =
      (if 0 < cfg.n_aux_channels then [unetInputX cfg, unetInputS cfg]
       else [unetInputX cfg]) := by
  unfold unetModel
  split_ifs <;> rfl

theorem upsampleInfo_unetBneck (cfg : UnetPinConfig) (dv : Option DVariant) (nb : Nat) :
    upsampleInfo (unetBneck cfg dv nb) = [] := by
  unfold unetBneck
  rw [show upsampleInfo (Tensor.convBlock (unetEnc cfg dv nb).nf cfg.activation
      cfg.dropout_rate (some dv) none none (some "Bottleneck") (unetEnc cfg dv nb).x) =
      upsampleInfo (unetEnc cfg dv nb).x from by simp [upsampleInfo, spineList]]
  unfold unetEnc
  rw [upsampleInfo_encoderLoop]
  unfold unetInputX
  split_ifs <;> simp [upsampleInfo, spineList]

theorem upsampleInfo_unetModel_spc (cfg : UnetPinConfig) (bb : Backbone)
    (dv : Option DVariant) (nb : Nat) (hus : cfg.decoder_upsampling = "spc") :
    upsampleInfo (unetModel cfg bb dv nb).output =
      (unetEnc cfg dv nb).nfl.map (fun f => ("spc", 2, some f)) := by
  rw [unetModel_output, upsampleInfo_modelTail]
  unfold unetDec
  rw [hus, upsampleInfo_decoderLoop_spc]
  rw [List.map_snd_zip _ _ (by
    rw [List.length_reverse, List.length_reverse, unetEnc_skips_length, unetEnc_nfl_length])]
  rw [List.reverse_reverse, upsampleInfo_unetBneck, List.append_nil]

theorem upsampleInfo_unetModel_dc (cfg : UnetPinConfig) (bb : Backbone)
    (dv : Option DVariant) (nb : Nat) (hus : cfg.decoder_upsampling = "dc") :
    upsampleInfo (unetModel cfg bb dv nb).output =
      (unetEnc cfg dv nb).nfl.map (fun f => ("dc", 2, some f)) := by
  rw [unetModel_output, upsampleInfo_modelTail]
  unfold unetDec
  rw [hus, upsampleInfo_decoderLoop_dc]
  rw [List.map_snd_zip _ _ (by
    rw [List.length_reverse, List.length_reverse, unetEnc_skips_length, unetEnc_nfl_length])]
  rw [List.reverse_reverse, upsampleInfo_unetBneck, List.append_nil]

theorem upsampleInfo_unetModel_rc (cfg : UnetPinConfig) (bb : Backbone)
    (dv : Option DVariant) (nb : Nat) (hus : cfg.decoder_upsampling = "rc") :
    ∀ e ∈ upsampleInfo (unetModel cfg bb dv nb).output, e.1 = "rc" ∧ e.2.1 = 2 := by
  intro e he
  rw [unetModel_output, upsampleInfo_modelTail] at he
  unfold unetDec at he
  rw [hus] at he
  rcases upsampleInfo_decoderLoop_rc_shape cfg.activation cfg.dropout_rate dv
      cfg.normalization cfg.attention _ 0 (unetBneck cfg dv nb)
      (unetEnc cfg dv nb).nf e he with h | h
  · exact h
  · rw [upsampleInfo_unetBneck] at h
    cases h

theorem upsampleInfo_unetModel_other (cfg : UnetPinConfig) (bb : Backbone)
    (dv : Option DVariant) (nb : Nat) (h1 : cfg.decoder_upsampling ≠ "spc")
    (h2 : cfg.decoder_upsampling ≠ "rc") (h3 : cfg.decoder_upsampling ≠ "dc") :
    upsampleInfo (unetModel cfg bb dv nb).output = [] := by
  rw [unetModel_output, upsampleInfo_modelTail]
  unfold unetDec
  rw [upsampleInfo_decoderLoop_other _ _ _ _ _ _ h1 h2 h3, upsampleInfo_unetBneck]

theorem auxFusions_backboneStep (bb : Backbone) (nf : Nat) (act : Option String)
    (dr : ℚ) (dv : Option DVariant) (nm : Option String) (att : Bool) (b : Tensor) :
    auxFusions (backboneStep bb nf act dr dv nm att b) = auxFusions b := by
  cases bb <;> simp [backboneStep, auxFusions, spineList]

theorem auxFusions_trunkLoop (bb : Backbone) (nf : Nat) (act : Option String)
    (dr : ℚ) (dv : Option DVariant) (nm : Option String) (att : Bool) :
    ∀ (n : Nat) (b : Tensor),
      auxFusions (trunkLoop bb nf act dr dv nm att n b) = auxFusions b := by
  intro n
  induction n with
  | zero => intro b; rfl
  | succ n ih =>
    intro b
    rw [trunkLoop, ih, auxFusions_backboneStep]

theorem auxFusions_netInputX (cfg : NetPinConfig) : auxFusions (netInputX cfg) = [] := by
  unfold netInputX
  split_ifs <;> simp [auxFusions, spineList]

theorem auxFusions_netB1 (cfg : NetPinConfig) (bb : Backbone) (dv : Option DVariant) :
    auxFusions (netB1 cfg bb dv) = [] := by
  unfold netB1
  rw [show auxFusions (Tensor.conv2D cfg.n_filters 3 3 "same"
      (trunkLoop bb cfg.n_filters cfg.activation cfg.dropout_rate dv cfg.normalization
        cfg.attention cfg.n_blocks (netX0 cfg))) =
      auxFusions (trunkLoop bb cfg.n_filters cfg.activation cfg.dropout_rate dv
        cfg.normalization cfg.attention cfg.n_blocks (netX0 cfg)) from by
    simp [auxFusions, spineList]]
  rw [auxFusions_trunkLoop]
  unfold netX0
  rw [show auxFusions (Tensor.conv2D cfg.n_filters 3 3 "same" (netInputX cfg)) =
      auxFusions (netInputX cfg) from by simp [auxFusions, spineList]]
  exact auxFusions_netInputX cfg

theorem auxFusions_netX0 (cfg : NetPinConfig) : auxFusions (netX0 cfg) = [] := by
  unfold netX0
  rw [show auxFusions (Tensor.conv2D cfg.n_filters 3 3 "same" (netInputX cfg)) =
      auxFusions (netInputX cfg) from by simp [auxFusions, spineList]]
  exact auxFusions_netInputX cfg

theorem netB1_not_convBlock (cfg : NetPinConfig) (bb : Backbone) (dv : Option DVariant) :
    ∀ f a r v n at' name y, netB1 cfg bb dv ≠ Tensor.convBlock f a r v n at' name y := by
  intro f a r v n at' name y h
  rw [netB1] at h
  cases h

theorem auxFusions_concat_notConv (x y : Tensor)
    (hy : ∀ f a r v n at' name z, y ≠ Tensor.convBlock f a r v n at' name z) :
    auxFusions (Tensor.concat x y) = auxFusions x := by
  cases y <;>
    first
    | exact absurd rfl (hy _ _ _ _ _ _ _ _)
    | simp [auxFusions, spineList, List.filterMap_cons]

theorem dropoutStep_tensor_shape (dr : ℚ) (dv : Option DVariant) (b : Tensor)
    (hnb : ¬(0 < dr ∧ (dv = some .mcgaussiandrop ∨ dv = some .mcspatialdrop)))
    (hb : ∀ f a r v n at' name z, b ≠ Tensor.convBlock f a r v n at' name z) :
    ∃ t, dropoutStep dr dv b = .tensor t ∧ auxFusions t = auxFusions b ∧
      (∀ f a r v n at' name z, t ≠ Tensor.convBlock f a r v n at' name z) := by
  unfold dropoutStep
  by_cases hdr : 0 < dr
  · rw [if_pos hdr]
    match dv with
    | none =>
      exact ⟨_, rfl, by simp [auxFusions, spineList], by intro f a r v n at' name z h; cases h⟩
    | some .gaussian =>
      exact ⟨_, rfl, by simp [auxFusions, spineList], by intro f a r v n at' name z h; cases h⟩
    | some .spatial =>
      exact ⟨_, rfl, by simp [auxFusions, spineList], by intro f a r v n at' name z h; cases h⟩
    | some .mcdrop =>
      exact ⟨_, rfl, by simp [auxFusions, spineList], by intro f a r v n at' name z h; cases h⟩
    | some .mcgaussiandrop => exact absurd ⟨hdr, Or.inl rfl⟩ hnb
    | some .mcspatialdrop => exact absurd ⟨hdr, Or.inr rfl⟩ hnb
  · rw [if_neg hdr]
    exact ⟨b, rfl, rfl, hb⟩

theorem netModel_output (cfg : NetPinConfig) (bb : Backbone) (xt : Tensor) :
    (netModel cfg bb xt).output =
      modelTail cfg.n_filters cfg.activation cfg.dropout_rate cfg.normalization
        cfg.n_channels_out cfg.output_activation cfg.localcon_layer
        (decide (0 < cfg.n_aux_channels)) (netInputS cfg) xt := by
  unfold netModel
  split_ifs <;> rfl

theorem netModel_inputs (cfg : NetPinConfig) (bb : Backbone) (xt : Tensor) :
    (netModel cfg bb xt).inputs =
      (if 0 < cfg.n_aux_channels then [netInputX cfg, netInputS cfg]
       else [netInputX cfg]) := by
  unfold netModel
  split_ifs <;> rfl

theorem auxFusions_netModel (cfg : NetPinConfig) (bb : Backbone) (xt : Tensor) :
    auxFusions (netModel cfg bb xt).output =
      (if 0 < cfg.n_aux_channels then [netInputS cfg] else []) ++ auxFusions xt := by
  rw [netModel_output]
  have hs : ∃ sp c, netInputS cfg = Tensor.inputS sp c := by
    unfold netInputS
    split_ifs <;> exact ⟨_, _, rfl⟩
  obtain ⟨sp, c, hs⟩ := hs
  rw [hs, auxFusions_modelTail, ← hs]
  by_cases ha : 0 < cfg.n_aux_channels <;> simp [ha]

theorem netPin_build (cfg : NetPinConfig) (bb : Backbone) (dv : Option DVariant)
    (hbb : checkarg_backbone cfg.backbone_block = .ok bb)
    (hdv : checkarg_dropout_variant cfg.dropout_variant = .ok dv)
    (hnb : ¬(0 < cfg.dropout_rate ∧ (dv = some .mcgaussiandrop ∨ dv = some .mcspatialdrop))) :
    ∃ xt, netPin cfg = .ok (netModel cfg bb xt) ∧ auxFusions xt = [] := by
  obtain ⟨t, hts, hta, htc⟩ := dropoutStep_tensor_shape cfg.dropout_rate dv (netB1 cfg bb dv)
    hnb (netB1_not_convBlock cfg bb dv)
  have htx : auxFusions t = [] := by rw [hta, auxFusions_netB1]
  cases bb with
  | convnet =>
    refine ⟨t, ?_, htx⟩
    simp only [netPin, hbb, hdv, hts, mergedTensor, requireTensor]
  | resnet =>
    refine ⟨Tensor.add (netX0 cfg) t, ?_, ?_⟩
    · simp only [netPin, hbb, hdv, hts, mergedTensor, requireTensor, Except.map]
    · rw [show auxFusions (Tensor.add (netX0 cfg) t) = auxFusions (netX0 cfg) from by
        simp [auxFusions, spineList]]
      exact auxFusions_netX0 cfg
  | densenet =>
    refine ⟨Tensor.concat (netX0 cfg) t, ?_, ?_⟩
    · simp only [netPin, hbb, hdv, hts, mergedTensor, requireTensor, Except.map]
    · rw [auxFusions_concat_notConv _ _ htc]
      exact auxFusions_netX0 cfg
/-- Claim C5: in `unet_pin` the number of decoder stages equals the effective
(possibly reduced) depth returned by the depth validator — never the
originally requested `n_blocks` — and the skip tensors consumed by the
decoder's `PadConcat` nodes are exactly the recorded skip-connection list,
each consumed once: listed from the output end inward the consumed skips
equal the recorded list in recording order, i.e. decoder stage `j` consumes
element `j` of the reversed recorded list. -/
theorem unet_pin_decoder_stage_count (cfg : UnetPinConfig) (bb : Backbone)
    (dv : Option DVariant) (nbI : Int)
    (hbb : checkarg_backbone cfg.backbone_block = .ok bb)
    (hdv : checkarg_dropout_variant cfg.dropout_variant = .ok dv)
    (hnb : _check_nblocks cfg.hr_size (cfg.n_blocks : Int) = some nbI) :
    ∃ m : KModel, unetPin cfg = some (Except.ok m) ∧
      skipsConsumed m.output = (unetEnc cfg dv nbI.toNat).skips ∧
      (skipsConsumed m.output).length = nbI.toNat ∧
      (unetEnc cfg dv nbI.toNat).skips.length = nbI.toNat := by
  refine ⟨unetModel cfg bb dv nbI.toNat, ?_, ?_, ?_, ?_⟩
  · simp only [unetPin, hbb, hdv, hnb]
  · exact skipsConsumed_unetModel cfg bb dv nbI.toNat
  · rw [skipsConsumed_unetModel, unetEnc_skips_length]
  · exact unetEnc_skips_length cfg dv nbI.toNat

/-- Claim C5 witness: at shape (64, 64) with requested depth 6 the validator
returns 5 and the assembled model has 5 decoder stages, not 6. -/
theorem unet_pin_decoder_stage_count_witness :
    (∃ m : KModel, unetPin cfgC5 = some (Except.ok m) ∧
      skipsConsumed m.output = (unetEnc cfgC5 (some .spatial) (5 : Int).toNat).skips ∧
      (skipsConsumed m.output).length = (5 : Int).toNat ∧
      (unetEnc cfgC5 (some .spatial) (5 : Int).toNat).skips.length = (5 : Int).toNat) ∧
    (5 : Int).toNat ≠ cfgC5.n_blocks :=
  ⟨unet_pin_decoder_stage_count cfgC5 .resnet (some .spatial) 5 rfl rfl (by decide), by decide⟩

/-- Claim C4: the encoder filter schedule starts at `n_filters` and doubles
with a cap of 256 at each stage (`cappedDoubling`), and the decoder-stage
convolution blocks consume exactly the recorded per-stage list, not a
recomputed one: listed from the output end inward they equal the recorded
list in recording order, i.e. in decoder stage order they are the recorded
list reversed; in particular the decoder's first stage filter count
(`nfl.reverse.head?`) equals the encoder's last (`nfl.getLast?`). -/
theorem unet_pin_filter_schedule (cfg : UnetPinConfig) (bb : Backbone)
    (dv : Option DVariant) (nbI : Int)
    (hbb : checkarg_backbone cfg.backbone_block = .ok bb)
    (hdv : checkarg_dropout_variant cfg.dropout_variant = .ok dv)
    (hnb : _check_nblocks cfg.hr_size (cfg.n_blocks : Int) = some nbI) :
    ∃ m : KModel, unetPin cfg = some (Except.ok m) ∧
      decoderConvFilters m.output = (unetEnc cfg dv nbI.toNat).nfl ∧
      (unetEnc cfg dv nbI.toNat).nfl =
        (List.range nbI.toNat).map (cappedDoubling cfg.n_filters) ∧
      cappedDoubling cfg.n_filters 0 = cfg.n_filters ∧
      (∀ i : Nat, cappedDoubling cfg.n_filters (i + 1) =
        min 256 (cappedDoubling cfg.n_filters i * 2)) ∧
      (unetEnc cfg dv nbI.toNat).nfl.reverse.head? =
        (unetEnc cfg dv nbI.toNat).nfl.getLast? := by
  refine ⟨unetModel cfg bb dv nbI.toNat, ?_, ?_, ?_, rfl, fun i => rfl, ?_⟩
  · simp only [unetPin, hbb, hdv, hnb]
  · exact decoderConvFilters_unetModel cfg bb dv nbI.toNat
  · exact unetEnc_nfl cfg dv nbI.toNat
  · simp

/-- Claim C4 witness: the theorem at 32 starting filters, validated depth 4
(shape (256, 256)): encoder schedule [32, 64, 128, 256], decoder stage
filters reversed [256, 128, 64, 32]. -/
theorem unet_pin_filter_schedule_witness :
    (∃ m : KModel, unetPin cfgC4 = some (Except.ok m) ∧
      decoderConvFilters m.output = (unetEnc cfgC4 (some .spatial) (4 : Int).toNat).nfl ∧
      (unetEnc cfgC4 (some .spatial) (4 : Int).toNat).nfl =
        (List.range (4 : Int).toNat).map (cappedDoubling cfgC4.n_filters) ∧
      cappedDoubling cfgC4.n_filters 0 = cfgC4.n_filters ∧
      (∀ i : Nat, cappedDoubling cfgC4.n_filters (i + 1) =
        min 256 (cappedDoubling cfgC4.n_filters i * 2)) ∧
      (unetEnc cfgC4 (some .spatial) (4 : Int).toNat).nfl.reverse.head? =
        (unetEnc cfgC4 (some .spatial) (4 : Int).toNat).nfl.getLast?) ∧
    (unetEnc cfgC4 (some .spatial) (4 : Int).toNat).nfl = [32, 64, 128, 256] ∧
    (builtModel? (unetPin cfgC4)).map (fun m => (decoderConvFilters m.output).reverse) =
      some [256, 128, 64, 32] :=
  ⟨unet_pin_filter_schedule cfgC4 .convnet (some .spatial) 4 rfl rfl (by decide),
    by decide, by decide⟩

/-- Claim C7 counterexample: with `attention=True` requested, the bottleneck
`ConvBlock` records no `attention` keyword at all (the source call omits it),
so the bottleneck's attention is not taken from the caller's configuration. -/
theorem unet_pin_bottleneck_attention_not_forwarded :
    cfgC7.attention = true ∧
    (builtModel? (unetPin cfgC7)).map (fun m => bottleneckList m.output) =
      some [⟨32, some "relu", 1, some (some .spatial), none, none⟩] ∧
    (none : Option Bool) ≠ some cfgC7.attention :=
  ⟨by decide, by decide, by decide⟩

/-- Claim C7 (amended): the bottleneck convolution block is applied at the
final filter count — the double-then-cap of the last encoder stage's filter
count — with dropout rate and variant from the caller's configuration and
normalization explicitly passed as `None`; the `attention` keyword is not
forwarded (recorded as `none`), so the block's own default applies
regardless of the caller's attention setting. -/
theorem unet_pin_bottleneck_block (cfg : UnetPinConfig) (bb : Backbone)
    (dv : Option DVariant) (nbI : Int)
    (hbb : checkarg_backbone cfg.backbone_block = .ok bb)
    (hdv : checkarg_dropout_variant cfg.dropout_variant = .ok dv)
    (hnb : _check_nblocks cfg.hr_size (cfg.n_blocks : Int) = some nbI) :
    ∃ m : KModel, unetPin cfg = some (Except.ok m) ∧
      bottleneckList m.output =
        [⟨cappedDoubling cfg.n_filters nbI.toNat, cfg.activation, cfg.dropout_rate,
          some dv, none, none⟩] ∧
      (0 < nbI.toNat → ∃ l, (unetEnc cfg dv nbI.toNat).nfl.getLast? = some l ∧
        cappedDoubling cfg.n_filters nbI.toNat = min 256 (l * 2)) := by
  refine ⟨unetModel cfg bb dv nbI.toNat, ?_, ?_, ?_⟩
  · simp only [unetPin, hbb, hdv, hnb]
  · exact bottleneckList_unetModel cfg bb dv nbI.toNat
  · intro hpos
    obtain ⟨k, hk⟩ : ∃ k, nbI.toNat = k + 1 := ⟨nbI.toNat - 1, by omega⟩
    refine ⟨cappedDoubling cfg.n_filters k, ?_, ?_⟩
    · rw [unetEnc_nfl, hk, List.range_succ, List.map_append]
      simp
    · rw [hk]
      rfl

/-- Claim C7 witness: the amended theorem at a depth-2 configuration with
`attention=True`: the bottleneck has filters 32 = min 256 (16 * 2), dropout
from the configuration, normalization `None`, attention not passed. -/
theorem unet_pin_bottleneck_block_witness :
    ∃ m : KModel, unetPin cfgC7 = some (Except.ok m) ∧
      bottleneckList m.output =
        [⟨cappedDoubling cfgC7.n_filters (2 : Int).toNat, cfgC7.activation,
          cfgC7.dropout_rate, some (some .spatial), none, none⟩] ∧
      (0 < (2 : Int).toNat →
        ∃ l, (unetEnc cfgC7 (some .spatial) (2 : Int).toNat).nfl.getLast? = some l ∧
          cappedDoubling cfgC7.n_filters (2 : Int).toNat = min 256 (l * 2)) :=
  unet_pin_bottleneck_block cfgC7 .convnet (some .spatial) 2 rfl rfl (by decide)

/-- Claim C6 counterexample: with the resize-convolution method `rc` the
upsampling step is a bare bilinear `UpSampling2D` (no convolution follows
inside the branch), so its output channel count equals its input's channel
count, not the stage's filter count: at 32 starting filters and depth 2 the
first decoder stage upsamples the 128-channel bottleneck output while the
stage's filter count is 64. -/
theorem unet_pin_rc_upsampling_channel_mismatch :
    (builtModel? (unetPin cfgC6rc)).map (fun m => upsampleInfo m.output) =
      some [("rc", 2, some 64), ("rc", 2, some 128)] ∧
    (builtModel? (unetPin cfgC6rc)).map (fun m => decoderConvFilters m.output) =
      some [32, 64] ∧
    some (128 : Nat) ≠ some (64 : Nat) :=
  ⟨by decide, by decide, by decide⟩

/-- Claim C6 (amended): every decoder stage upsamples by factor 2 for all
three configured methods; for sub-pixel convolution (`spc`) and transposed
convolution (`dc`) the upsampling block's output carries the stage's filter
count, while for `rc` the step is bilinear `UpSampling2D` alone, whose
output channel count is its input's (see the counterexample for the
resulting mismatch with the stage's filter count). -/
theorem unet_pin_decoder_upsampling_methods (cfg : UnetPinConfig) (bb : Backbone)
    (dv : Option DVariant) (nbI : Int)
    (hbb : checkarg_backbone cfg.backbone_block = .ok bb)
    (hdv : checkarg_dropout_variant cfg.dropout_variant = .ok dv)
    (hnb : _check_nblocks cfg.hr_size (cfg.n_blocks : Int) = some nbI) :
    ∃ m : KModel, unetPin cfg = some (Except.ok m) ∧
      (cfg.decoder_upsampling = "spc" →
        upsampleInfo m.output =
          (unetEnc cfg dv nbI.toNat).nfl.map (fun f => ("spc", 2, some f))) ∧
      (cfg.decoder_upsampling = "dc" →
        upsampleInfo m.output =
          (unetEnc cfg dv nbI.toNat).nfl.map (fun f => ("dc", 2, some f))) ∧
      (cfg.decoder_upsampling = "rc" →
        ∀ e ∈ upsampleInfo m.output, e.1 = "rc" ∧ e.2.1 = 2) := by
  refine ⟨unetModel cfg bb dv nbI.toNat, ?_, ?_, ?_, ?_⟩
  · simp only [unetPin, hbb, hdv, hnb]
  · exact fun h => upsampleInfo_unetModel_spc cfg bb dv nbI.toNat h
  · exact fun h => upsampleInfo_unetModel_dc cfg bb dv nbI.toNat h
  · exact fun h => upsampleInfo_unetModel_rc cfg bb dv nbI.toNat h

/-- Claim C6 witness: the amended theorem at the sub-pixel configuration;
there each stage's upsampling output carries the stage's filter count. -/
theorem unet_pin_decoder_upsampling_methods_witness :
    (∃ m : KModel, unetPin cfgC6spc = some (Except.ok m) ∧
      (cfgC6spc.decoder_upsampling = "spc" →
        upsampleInfo m.output =
          (unetEnc cfgC6spc (some .spatial) (2 : Int).toNat).nfl.map
            (fun f => ("spc", 2, some f))) ∧
      (cfgC6spc.decoder_upsampling = "dc" →
        upsampleInfo m.output =
          (unetEnc cfgC6spc (some .spatial) (2 : Int).toNat).nfl.map
            (fun f => ("dc", 2, some f))) ∧
      (cfgC6spc.decoder_upsampling = "rc" →
        ∀ e ∈ upsampleInfo m.output, e.1 = "rc" ∧ e.2.1 = 2)) ∧
    (builtModel? (unetPin cfgC6spc)).map (fun m => upsampleInfo m.output) =
      some [("spc", 2, some 32), ("spc", 2, some 64)] :=
  ⟨unet_pin_decoder_upsampling_methods cfgC6spc .convnet (some .spatial) 2 rfl rfl
    (by decide), by decide⟩

/-- For target shapes with both dimensions 2 or 3 the depth validator
reduces every requested depth to 0 (halving once already drops a dimension
below 2, while power 0 is feasible). -/
theorem check_nblocks_eq_zero (h w : Nat) (hh2 : 2 ≤ h) (hw2 : 2 ≤ w)
    (hh4 : h < 4) (hw4 : w < 4) (n : Nat) :
    _check_nblocks (h, w) (n : Int) = some 0 := by
  obtain ⟨r, hrun, hall, hc, hlo, hhi, hmax⟩ := check_nblocks_run h w n (by omega) (by omega)
  have hr0 : 0 ≤ r := check_nblocks_result_nonneg h w n hh2 hw2 r hlo hhi hmax
  have hr_eq : r = 0 := by
    by_contra hne
    have hk : 1 ≤ r.toNat := by omega
    have hdiv := ((nblocksCond_natCast h w r.toNat).mp
      (by rwa [Int.toNat_of_nonneg hr0])).1
    have hpow : 2 ≤ 2 ^ r.toNat := by
      calc 2 = 2 ^ 1 := by norm_num
      _ ≤ 2 ^ r.toNat := Nat.pow_le_pow_right (by norm_num) hk
    have hlt : h / 2 ^ r.toNat < 2 := by
      have hp : 0 < 2 ^ r.toNat := Nat.pos_pow_of_pos _ (by norm_num)
      rw [Nat.div_lt_iff_lt_mul hp]
      calc h < 4 := hh4
      _ ≤ 2 * 2 ^ r.toNat := by omega
    omega
  rw [hr_eq] at hrun
  exact hrun

/-- Claim C10: when the validated depth is 0 (for example any requested
depth at target shape (2, 2) or (3, 3)), `unet_pin` still returns an
assembled model: no decoder stage and no skip connection exists, the
decoder filter list is empty, no upsampling node exists, the bottleneck
block runs at the original `n_filters` directly on the input tensor, and
the localized/auxiliary/output tail is attached as usual (input arity per
the auxiliary setting). -/
theorem unet_pin_zero_depth (cfg : UnetPinConfig) (bb : Backbone) (dv : Option DVariant)
    (hbb : checkarg_backbone cfg.backbone_block = .ok bb)
    (hdv : checkarg_dropout_variant cfg.dropout_variant = .ok dv)
    (hnb : _check_nblocks cfg.hr_size (cfg.n_blocks : Int) = some 0) :
    ∃ m : KModel, unetPin cfg = some (Except.ok m) ∧
      skipsConsumed m.output = [] ∧
      decoderConvFilters m.output = [] ∧
      upsampleInfo m.output = [] ∧
      bottleneckList m.output =
        [⟨cfg.n_filters, cfg.activation, cfg.dropout_rate, some dv, none, none⟩] ∧
      bottleneckInputs m.output = [unetInputX cfg] ∧
      m.inputs.length = (if 0 < cfg.n_aux_channels then 2 else 1) ∧
      (∀ n : Nat, _check_nblocks (2, 2) (n : Int) = some 0) ∧
      (∀ n : Nat, _check_nblocks (3, 3) (n : Int) = some 0) := by
  refine ⟨unetModel cfg bb dv 0, ?_, ?_, ?_, ?_, ?_, ?_, ?_, ?_, ?_⟩
  · simp only [unetPin, hbb, hdv, hnb, Int.toNat_zero]
  · rw [skipsConsumed_unetModel]
    rfl
  · rw [decoderConvFilters_unetModel]
    rfl
  · rw [unetModel_output, upsampleInfo_modelTail]
    have hdec : (unetDec cfg dv 0).1 = unetBneck cfg dv 0 := rfl
    rw [hdec, upsampleInfo_unetBneck]
  · rw [bottleneckList_unetModel]
    rfl
  · rw [bottleneckInputs_unetModel]
    rfl
  · rw [unetModel_inputs]
    by_cases ha : 0 < cfg.n_aux_channels <;> simp [ha]
  · exact fun n => check_nblocks_eq_zero 2 2 (by norm_num) (by norm_num) (by norm_num) (by norm_num) n
  · exact fun n => check_nblocks_eq_zero 3 3 (by norm_num) (by norm_num) (by norm_num) (by norm_num) n

/-- Claim C10 witness: the theorem at shape (2, 2) with requested depth 7,
dense backbone and one auxiliary channel (two-input model). -/
theorem unet_pin_zero_depth_witness :
    ∃ m : KModel, unetPin cfgC10 = some (Except.ok m) ∧
      skipsConsumed m.output = [] ∧
      decoderConvFilters m.output = [] ∧
      upsampleInfo m.output = [] ∧
      bottleneckList m.output =
        [⟨cfgC10.n_filters, cfgC10.activation, cfgC10.dropout_rate,
          some (some .spatial), none, none⟩] ∧
      bottleneckInputs m.output = [unetInputX cfgC10] ∧
      m.inputs.length = (if 0 < cfgC10.n_aux_channels then 2 else 1) ∧
      (∀ n : Nat, _check_nblocks (2, 2) (n : Int) = some 0) ∧
      (∀ n : Nat, _check_nblocks (3, 3) (n : Int) = some 0) :=
  unet_pin_zero_depth cfgC10 .densenet (some .spatial) rfl rfl (by decide)

/-- Claim C8 counterexample: a configuration whose categorical arguments all
validate (resnet backbone, the accepted `mcspatialdrop` variant) with
auxiliary channels present, yet `net_pin` produces no model at all: the
Monte-Carlo dropout branch overwrites the trunk with an unapplied layer
object and graph construction fails when that object reaches the next
tensor-consuming layer. -/
theorem net_pin_mc_dropout_breaks_model :
    checkarg_backbone netCfgC8.backbone_block = .ok .resnet ∧
    checkarg_dropout_variant netCfgC8.dropout_variant = .ok (some .mcspatialdrop) ∧
    0 < netCfgC8.n_aux_channels ∧
    builderErrorE? (netPin netCfgC8) =
      some "a layer object was passed where a graph tensor is required" :=
  ⟨rfl, rfl, by decide, by decide⟩

/-- Claim C8 (amended): for every configuration with valid categorical
arguments — and, for `net_pin`, a dropout setting that avoids the defective
Monte-Carlo branches (rate 0, or a variant other than `mcgaussiandrop` and
`mcspatialdrop`) — the returned model has exactly two inputs when
`n_aux_channels > 0` and one input otherwise, and the auxiliary-fusion
concatenation node exists in the graph exactly when the auxiliary input
exists.  (`unet_pin` has no such defective branch and needs no exclusion.) -/
theorem builders_input_arity (cfgN : NetPinConfig) (cfgU : UnetPinConfig)
    (bbN bbU : Backbone) (dvN dvU : Option DVariant) (nbI : Int)
    (hbbN : checkarg_backbone cfgN.backbone_block = .ok bbN)
    (hdvN : checkarg_dropout_variant cfgN.dropout_variant = .ok dvN)
    (hbug : ¬(0 < cfgN.dropout_rate ∧
      (dvN = some .mcgaussiandrop ∨ dvN = some .mcspatialdrop)))
    (hbbU : checkarg_backbone cfgU.backbone_block = .ok bbU)
    (hdvU : checkarg_dropout_variant cfgU.dropout_variant = .ok dvU)
    (hnbU : _check_nblocks cfgU.hr_size (cfgU.n_blocks : Int) = some nbI) :
    (∃ m : KModel, netPin cfgN = .ok m ∧
      m.inputs.length = (if 0 < cfgN.n_aux_channels then 2 else 1) ∧
      (auxFusions m.output).length = (if 0 < cfgN.n_aux_channels then 1 else 0)) ∧
    (∃ m : KModel, unetPin cfgU = some (Except.ok m) ∧
      m.inputs.length = (if 0 < cfgU.n_aux_channels then 2 else 1) ∧
      (auxFusions m.output).length = (if 0 < cfgU.n_aux_channels then 1 else 0)) := by
  constructor
  · obtain ⟨xt, hok, hxt⟩ := netPin_build cfgN bbN dvN hbbN hdvN hbug
    refine ⟨netModel cfgN bbN xt, hok, ?_, ?_⟩
    · rw [netModel_inputs]
      by_cases ha : 0 < cfgN.n_aux_channels <;> simp [ha]
    · rw [auxFusions_netModel, hxt, List.append_nil]
      by_cases ha : 0 < cfgN.n_aux_channels <;> simp [ha]
  · refine ⟨unetModel cfgU bbU dvU nbI.toNat, ?_, ?_, ?_⟩
    · simp only [unetPin, hbbU, hdvU, hnbU]
    · rw [unetModel_inputs]
      by_cases ha : 0 < cfgU.n_aux_channels <;> simp [ha]
    · rw [auxFusions_unetModel]
      by_cases ha : 0 < cfgU.n_aux_channels <;> simp [ha]

/-- Claim C8 witness: the amended theorem at a two-aux-channel `net_pin`
configuration with spatial dropout and the two-input depth-0 `unet_pin`
configuration with one auxiliary channel. -/
theorem builders_input_arity_witness :
    (∃ m : KModel, netPin netCfgC8ok = .ok m ∧
      m.inputs.length = (if 0 < netCfgC8ok.n_aux_channels then 2 else 1) ∧
      (auxFusions m.output).length = (if 0 < netCfgC8ok.n_aux_channels then 1 else 0)) ∧
    (∃ m : KModel, unetPin cfgC10 = some (Except.ok m) ∧
      m.inputs.length = (if 0 < cfgC10.n_aux_channels then 2 else 1) ∧
      (auxFusions m.output).length = (if 0 < cfgC10.n_aux_channels then 1 else 0)) :=
  builders_input_arity netCfgC8ok cfgC10 .resnet .densenet (some .spatial)
    (some .spatial) 0 rfl rfl (by decide) rfl rfl (by decide)

/-- Claim C2: in `net_pin` with a positive dropout rate, the dropout
dispatch applies the selected layer to the trunk tensor `b` for the
variants None, `gaussian`, `spatial` and `mcdrop`, but the `mcgaussiandrop`
and `mcspatialdrop` branches assign the constructed layer object itself —
`b = MCGaussianDropout(dropout_rate)` / `b = MCSpatialDropout2D(dropout_rate)`
without the trailing `(b)` — so dropout is not applied there and graph
construction subsequently fails; evaluated here at the failing input and
contrasted with the spatial variant. -/
theorem net_pin_mc_dropout_not_applied :
    dropoutStep 1 (some .mcgaussiandrop) (Tensor.inputX none 1) =
      .layer (.mcGaussianDropoutLayer 1) ∧
    dropoutStep 1 (some .mcspatialdrop) (Tensor.inputX none 1) =
      .layer (.mcSpatialDropout2DLayer 1) ∧
    dropoutStep 1 (some .spatial) (Tensor.inputX none 1) =
      .tensor (.spatialDropout2D 1 (Tensor.inputX none 1)) ∧
    builderErrorE? (netPin netCfgC2) =
      some "a layer object was passed where a graph tensor is required" :=
  ⟨by decide, by decide, by decide, by decide⟩

/-- Claim C3 counterexample: an invalid decoder upsampling method raises no
error: with `decoder_upsampling="bogus"`, `unet_pin` still assembles and
returns a model — the source's if/elif chain has no else branch, so every
decoder stage silently skips its upsampling step (the graph contains no
upsampling node) while the two decoder stages are still built. -/
theorem unet_pin_invalid_decoder_upsampling_no_error :
    builderError? (unetPin cfgC3bad) = none ∧
    (builtModel? (unetPin cfgC3bad)).isSome = true ∧
    (builtModel? (unetPin cfgC3bad)).map (fun m => upsampleInfo m.output) = some [] ∧
    (builtModel? (unetPin cfgC3bad)).map (fun m => (skipsConsumed m.output).length) = some 2 :=
  ⟨by decide, by decide, by decide, by decide⟩

/-- Claim C3 (amended): the backbone and dropout-variant arguments are
validated before any graph node exists — both builders return the
validator's argument error unchanged, and for any value outside the closed
set the error message names the invalid value and enumerates the accepted
set (the validators live in `dl4ds/utils.py`, outside this snapshot, and
are modelled from the spec); construction is a pure function, so a repeated
call returns the same error and no partial state exists.  The decoder
upsampling method, however, is not validated at all (see the
counterexample). -/
theorem categorical_argument_validation (cfgU : UnetPinConfig) (cfgN : NetPinConfig)
    (s t : String) :
    ((s ≠ "convnet" ∧ s ≠ "resnet" ∧ s ≠ "densenet") →
      checkarg_backbone s = .error
        ("`" ++ s ++ "` is not an accepted backbone. Accepted values: convnet, resnet, densenet")) ∧
    ((t ≠ "gaussian" ∧ t ≠ "spatial" ∧ t ≠ "mcdrop" ∧ t ≠ "mcgaussiandrop" ∧
        t ≠ "mcspatialdrop") →
      checkarg_dropout_variant (some t) = .error
        ("`" ++ t ++ "` is not an accepted dropout variant. Accepted values: None, gaussian, spatial, mcdrop, mcgaussiandrop, mcspatialdrop")) ∧
    (∀ e, checkarg_backbone cfgU.backbone_block = .error e →
      unetPin cfgU = some (.error e)) ∧
    (∀ bb e, checkarg_backbone cfgU.backbone_block = .ok bb →
      checkarg_dropout_variant cfgU.dropout_variant = .error e →
      unetPin cfgU = some (.error e)) ∧
    (∀ e, checkarg_backbone cfgN.backbone_block = .error e → netPin cfgN = .error e) ∧
    (∀ bb e, checkarg_backbone cfgN.backbone_block = .ok bb →
      checkarg_dropout_variant cfgN.dropout_variant = .error e → netPin cfgN = .error e) := by
  refine ⟨?_, ?_, ?_, ?_, ?_, ?_⟩
  · rintro ⟨h1, h2, h3⟩
    unfold checkarg_backbone
    split <;> simp_all
  · rintro ⟨h1, h2, h3, h4, h5⟩
    unfold checkarg_dropout_variant
    split <;> simp_all
  · intro e he
    simp only [unetPin, he]
  · intro bb e hbb he
    simp only [unetPin, hbb, he]
  · intro e he
    simp only [netPin, he]
  · intro bb e hbb he
    simp only [netPin, hbb, he]

/-- Claim C3 witness: the amended theorem applied at the invalid backbone
string `transformer` and at a configuration with the invalid dropout
variant `bogus`: both builders surface the enumerating argument error and
build nothing. -/
theorem categorical_argument_validation_witness :
    unetPin cfgC3badBB = some (.error
      "`transformer` is not an accepted backbone. Accepted values: convnet, resnet, densenet") ∧
    netPin netCfgC3badDV = .error
      "`bogus` is not an accepted dropout variant. Accepted values: None, gaussian, spatial, mcdrop, mcgaussiandrop, mcspatialdrop" := by
  constructor
  · exact (categorical_argument_validation cfgC3badBB netCfgC3badDV "transformer"
      "bogus").2.2.1 _ rfl
  · exact (categorical_argument_validation cfgC3badBB netCfgC3badDV "transformer"
      "bogus").2.2.2.2.2 Backbone.convnet _ rfl rfl
